import Mathlib

/-!
Verification development for the cpufreq governor subsystem of the
breakfast-hammerhead kernel tree.

The embedding covers:
* the load sampling code of the governor common code
  (`get_policy_max_load`, `drivers/cpufreq/cpu-boost.c`, governor part),
* the ondemand and conservative decision routines
  (`od_check_cpu`, `cs_check_cpu`, `scale_freq` in
  `drivers/cpufreq/cpufreq_ondemand.c`),
* the two migration sync workers (`od_sync_thread` and
  `boost_mig_sync_thread`),
* the reference-counted lifecycle helpers (`od_init` / `od_exit`) and the
  governor event dispatch,
* the interactive governor's `choose_freq` frequency-table bisection
  (`drivers/cpufreq/cpufreq_userspace.c`, interactive part).

Machine integers are embedded as `Nat` with explicit reductions modulo
`2 ^ 32` (or `2 ^ 64`) exactly where the C code computes in `u32` (`u64`).
-/

namespace Hammerhead

/-- Modulus of the C `u32` type. -/
def U32 : Nat := 2 ^ 32

/-- Modulus of the C `u64` type. -/
def U64 : Nat := 2 ^ 64

/-- Largest `u32` value; the `~0` sentinel `choose_freq` uses for `freqmax`. -/
def U32MAX : Nat := U32 - 1

/-- Truncation to `u32`, as in a C cast. -/
def m32 (a : Nat) : Nat := a % U32

/-- Wrapping `u32` addition. -/
def add32 (a b : Nat) : Nat := (a + b) % U32

/-- Wrapping `u32` subtraction. -/
def sub32 (a b : Nat) : Nat := (a % U32 + U32 - b % U32) % U32

/-- Wrapping `u32` multiplication. -/
def mul32 (a b : Nat) : Nat := a * b % U32

/-- Reinterpretation of a `u32` value as a signed C `int`. -/
def toInt32 (a : Nat) : Int :=
  if a % U32 < 2 ^ 31 then ((a % U32 : Nat) : Int)
  else ((a % U32 : Nat) : Int) - (U32 : Int)

/-- Truncating cast to `u32` of a wrapping `u64` subtraction, as in
`(u32)(a - b)` on `u64` operands. -/
def sub64to32 (a b : Nat) : Nat := (a % U64 + U64 - b % U64) % U64 % U32

/-- The fields of `struct cpufreq_policy` that the governors read: the current
frequency, the policy frequency bounds and the hardware (`cpuinfo`) frequency
bounds, all in kHz. -/
structure cpufreq_policy where
  cur : Nat
  min : Nat
  max : Nat
  cpuinfo_min_freq : Nat
  cpuinfo_max_freq : Nat
  deriving Repr, DecidableEq

/-- Per-cpu sampling state of the governor common code
(`struct cpu_dbs_common_info`): previous cumulative idle and wall clock
readings and the previously computed load values. -/
structure cpu_dbs_common_info where
  prev_cpu_idle : Nat
  prev_cpu_wall : Nat
  prev_load : Nat
  max_load : Nat
  deriving Repr, DecidableEq

/-- Per-cpu external inputs of one sampling tick: the cumulative idle and wall
clocks returned by `get_cpu_idle_time` (u64 microsecond counters) and the
average frequency reported by `__cpufreq_driver_getavg` (an `int`,
non-positive on failure). -/
structure cpu_tick_input where
  cur_idle_time : Nat
  cur_wall_time : Nat
  freq_avg : Int
  deriving Repr, DecidableEq

/-- Freshly computed load of one cpu inside `get_policy_max_load`
(governor common code in `cpu-boost.c`, lines 594-641): wall and idle deltas
are truncated to `u32`; a zero wall delta reuses the previous load; a wall
delta below the idle delta is clamped to 100 when the idle delta is negative
as an `int` and to 0 otherwise; the ordinary case is
`100 * (wall_time - idle_time) / wall_time` in `u32` arithmetic. -/
def fresh_load (c : cpu_dbs_common_info) (t : cpu_tick_input) : Nat :=
  let idle_time := sub64to32 t.cur_idle_time c.prev_cpu_idle
  let wall_time := sub64to32 t.cur_wall_time c.prev_cpu_wall
  if wall_time = 0 then c.prev_load
  else if wall_time < idle_time then (if 2 ^ 31 ≤ idle_time then 100 else 0)
  else m32 (100 * (wall_time - idle_time)) / wall_time

/-- One iteration of the per-cpu loop of `get_policy_max_load` (lines
594-697): the load of the tick is the fresh load, except in the load-burst
case (`wall_time > sampling_rate * 2` and fresh load below the stored
previous load) where the previous load is reused for this tick and the
stored previous load is cleared; the idle and wall snapshots are updated and
`max_load` becomes `max(cur_load, prev_load)` with the updated previous
load.  Returns the updated state and the load used for this tick. -/
def cpu_sample_step (sampling_rate : Nat) (c : cpu_dbs_common_info)
    (t : cpu_tick_input) : cpu_dbs_common_info × Nat :=
  let wall_time := sub64to32 t.cur_wall_time c.prev_cpu_wall
  let fresh := fresh_load c t
  let cur_load :=
    if mul32 sampling_rate 2 < wall_time ∧ fresh < c.prev_load then
      c.prev_load
    else fresh
  let prev_load' :=
    if mul32 sampling_rate 2 < wall_time ∧ fresh < c.prev_load then 0
    else fresh
  ({ prev_cpu_idle := t.cur_idle_time % U64,
     prev_cpu_wall := t.cur_wall_time % U64,
     prev_load := prev_load',
     max_load := max cur_load prev_load' }, cur_load)

/-- Body of `get_policy_max_load` over the cpus of one policy (lines
584-711).  Returns the updated per-cpu states, the maximum load across the
policy and the maximum `load * average frequency` product (`_max_load_freq`,
with the `policy->cur` fallback when `__cpufreq_driver_getavg` fails).  The
best-effort utilization report (`cpufreq_notify_utilization`) does not change
governor state and is not modelled; a caller passing a NULL `max_load_freq`
pointer simply ignores the third component. -/
def get_policy_max_load (sampling_rate policy_cur : Nat) :
    List (cpu_dbs_common_info × cpu_tick_input) →
      List cpu_dbs_common_info × Nat × Nat
  | [] => ([], 0, 0)
  | (c, t) :: rest =>
      let s := cpu_sample_step sampling_rate c t
      let favg : Nat := if t.freq_avg ≤ 0 then policy_cur else t.freq_avg.toNat
      let load_freq := mul32 s.2 favg
      let r := get_policy_max_load sampling_rate policy_cur rest
      (s.1 :: r.1, max s.2 r.2.1, max load_freq r.2.2)

/-- Per-cpu state initialization performed by `cpufreq_governor_dbs` on
`CPUFREQ_GOV_START` (governor common code, lines 870-878): the previous load
is reset to zero and fresh idle/wall snapshots are taken; `max_load` is left
as it was. -/
def gov_start_cdbs (c : cpu_dbs_common_info) (idle wall : Nat) :
    cpu_dbs_common_info :=
  { prev_cpu_idle := idle % U64, prev_cpu_wall := wall % U64,
    prev_load := 0, max_load := c.max_load }

/-- Rounding relation of a `__cpufreq_driver_target` request
(`CPUFREQ_RELATION_L` / `_H` / `_C`). -/
inductive freq_relation where
  | L
  | H
  | C
  deriving Repr, DecidableEq

/-- The `switch_freq` helper (`cpufreq_governor.h`, lines 232-238): no driver
request is issued when the policy already runs at its maximum frequency;
otherwise the target is requested with the closest-frequency relation. -/
def switch_freq (policy : cpufreq_policy) (target_freq : Nat) :
    Option (Nat × freq_relation) :=
  if policy.cur = policy.max then none
  else some (target_freq, freq_relation.C)

/-- View of another online cpu as read by `get_policy_max_load_other_cpu`:
its stored `max_load` and, when it currently has a policy, that policy's
current and maximum frequency. -/
structure other_cpu_info where
  max_load : Nat
  cur_policy : Option (Nat × Nat)
  deriving Repr, DecidableEq

/-- The `get_policy_max_load_other_cpu` aggregation (governor common code,
lines 726-757): the maximum stored `max_load` over the other online cpus,
where a peer pinned at its policy maximum counts as loaded at `target_load`
whenever the caller already runs at or above `optimal_freq`. -/
def get_policy_max_load_other_cpu (policy_cur optimal_freq target_load : Nat) :
    List other_cpu_info → Nat
  | [] => 0
  | j :: rest =>
      let m := get_policy_max_load_other_cpu policy_cur optimal_freq
                 target_load rest
      let m1 := max m j.max_load
      match j.cur_policy with
      | some (cur, mx) =>
          if cur = mx ∧ optimal_freq ≤ policy_cur then max m1 target_load
          else m1
      | none => m1

/-- The ondemand tunables (`struct od_dbs_tuners`); the last three fields are
the 0-or-1 valued `u32` bitfields. -/
structure od_dbs_tuners where
  sampling_rate : Nat
  sampling_down_factor : Nat
  up_threshold : Nat
  up_threshold_multi_core : Nat
  up_threshold_any_cpu_load : Nat
  down_differential : Nat
  down_differential_multi_core : Nat
  input_boost_freq : Nat
  optimal_freq : Nat
  sync_freq : Nat
  sync_on_migration : Nat
  load_scaling : Nat
  io_is_busy : Nat
  deriving Repr, DecidableEq

/-- Result of one ondemand or conservative decision: the updated tick-rate
multiplier, the frequency request issued to the driver (if any, with its
rounding relation) and the updated per-cpu sampling states. -/
structure od_decision where
  rate_mult : Nat
  action : Option (Nat × freq_relation)
  cdbs : List cpu_dbs_common_info
  deriving Repr, DecidableEq

/-- The ondemand decision routine `od_check_cpu` (`cpufreq_ondemand.c`,
lines 58-155): refresh the loads, then (a) with `load_scaling` set, burst to
`policy->max` when the maximum load reaches `up_threshold` and otherwise
scale linearly between the `cpuinfo` frequency bounds; (b) otherwise burst
to `policy->max` when the averaged load-frequency product reaches
`up_threshold * policy->cur`, align with other online cpus, and scale down
proportionally only when the product falls below
`(up_threshold - down_differential) * policy->cur`. -/
def od_check_cpu (tun : od_dbs_tuners) (policy : cpufreq_policy)
    (rate_mult num_online : Nat)
    (cpus : List (cpu_dbs_common_info × cpu_tick_input))
    (others : List other_cpu_info) : od_decision :=
  let min_f := policy.cpuinfo_min_freq
  let max_f := policy.cpuinfo_max_freq
  let r := get_policy_max_load tun.sampling_rate policy.cur cpus
  let cdbs := r.1
  let max_load := r.2.1
  let max_load_freq := r.2.2
  let max_load_other_cpu :=
    get_policy_max_load_other_cpu policy.cur tun.optimal_freq
      tun.up_threshold_any_cpu_load others
  if tun.load_scaling ≠ 0 then
    if tun.up_threshold ≤ max_load then
      { rate_mult := if policy.cur < policy.max then tun.sampling_down_factor
                     else rate_mult,
        action := switch_freq policy policy.max, cdbs := cdbs }
    else
      { rate_mult := 1,
        action := some (add32 min_f (mul32 max_load (sub32 max_f min_f) / 100),
                        freq_relation.C),
        cdbs := cdbs }
  else if mul32 tun.up_threshold policy.cur ≤ max_load_freq then
    { rate_mult := if policy.cur < policy.max then tun.sampling_down_factor
                   else rate_mult,
      action := switch_freq policy policy.max, cdbs := cdbs }
  else if 1 < num_online ∧
          tun.up_threshold_any_cpu_load < max_load_other_cpu then
    { rate_mult := rate_mult,
      action := if policy.cur < tun.sync_freq then
                  switch_freq policy tun.sync_freq
                else none,
      cdbs := cdbs }
  else if 1 < num_online ∧
          mul32 tun.up_threshold_multi_core policy.cur ≤ max_load_freq then
    { rate_mult := rate_mult,
      action := if policy.cur < tun.optimal_freq then
                  switch_freq policy tun.optimal_freq
                else none,
      cdbs := cdbs }
  else if policy.cur = policy.min then
    { rate_mult := rate_mult, action := none, cdbs := cdbs }
  else if max_load_freq ≤
          mul32 (sub32 tun.up_threshold tun.down_differential) policy.cur then
    let freq_next0 :=
      max (max_load_freq / sub32 tun.up_threshold tun.down_differential)
        policy.min
    let freq_next1 :=
      if 1 < num_online ∧
         sub32 tun.up_threshold_multi_core tun.down_differential ≤
           max_load_other_cpu ∧
         freq_next0 < tun.sync_freq then tun.sync_freq
      else freq_next0
    let freq_next2 :=
      if 1 < num_online ∧
         mul32 (sub32 tun.up_threshold_multi_core
                  tun.down_differential_multi_core) policy.cur ≤
           max_load_freq ∧
         freq_next1 < tun.optimal_freq then tun.optimal_freq
      else freq_next1
    { rate_mult := 1, action := some (freq_next2, freq_relation.C),
      cdbs := cdbs }
  else
    { rate_mult := rate_mult, action := none, cdbs := cdbs }

/-- Cast of a signed C `int` back to `u32`. -/
def int2u32 (i : Int) : Nat := (i % (U32 : Int)).toNat

/-- The kernel `clamp_t(int, val, lo, hi)` applied to `u32` operands as in
`scale_freq`: all three values are reinterpreted as signed `int`s, the value
is clamped between `lo` and `hi`, and the result is stored back into a
`u32`. -/
def clamp_int32 (v lo hi : Nat) : Nat :=
  int2u32 (min (max (toInt32 v) (toInt32 lo)) (toInt32 hi))

/-- The conservative tunables (`struct cs_dbs_tuners`). -/
structure cs_dbs_tuners where
  sampling_rate : Nat
  sampling_down_factor : Nat
  up_threshold : Nat
  up_threshold_burst : Nat
  up_threshold_at_low_freq : Nat
  down_threshold : Nat
  freq_up_step : Nat
  freq_down_step : Nat
  freq_cons_low : Nat
  io_is_busy : Nat
  deriving Repr, DecidableEq

/-- Result of one conservative decision: the tracked target frequency, the
tick-rate multiplier, the driver request (if any) and the updated per-cpu
sampling states. -/
structure cs_decision where
  target_freq : Nat
  rate_mult : Nat
  action : Option (Nat × freq_relation)
  cdbs : List cpu_dbs_common_info
  deriving Repr, DecidableEq

/-- The conservative `scale_freq` helper (`cpufreq_ondemand.c`, conservative
part, lines 688-715): reset the tick multiplier to 1; return without a
request when the policy is already at the boundary it would move towards;
otherwise move the tracked target frequency by
`policy->max * freq_{down,up}_step / 100` (u32 arithmetic) and clamp it as
an `int` into `[policy->min, policy->max]`.  A decrease is requested with
the closest relation and an increase with the not-below relation. -/
def scale_freq (tun : cs_dbs_tuners) (policy : cpufreq_policy)
    (target_freq : Nat) (decrease : Bool)
    (cdbs : List cpu_dbs_common_info) : cs_decision :=
  if policy.cur = (if decrease then policy.min else policy.max) then
    { target_freq := target_freq, rate_mult := 1, action := none,
      cdbs := cdbs }
  else
    let freq_diff := mul32 policy.max
        (if decrease then tun.freq_down_step else tun.freq_up_step) / 100
    let moved := if decrease then sub32 target_freq freq_diff
                 else add32 target_freq freq_diff
    let clamped := clamp_int32 moved policy.min policy.max
    { target_freq := clamped, rate_mult := 1,
      action := some (clamped, if decrease then freq_relation.C
                               else freq_relation.H),
      cdbs := cdbs }

/-- The up threshold applicable to the current conservative tick (lines
740-746): the lower `up_threshold_at_low_freq` is used when the current
frequency is at or below the `freq_cons_low` corner. -/
def cs_up_threshold (tun : cs_dbs_tuners) (policy : cpufreq_policy) : Nat :=
  if policy.cur ≤ tun.freq_cons_low then tun.up_threshold_at_low_freq
  else tun.up_threshold

/-- The conservative decision routine `cs_check_cpu` (lines 717-753): burst
to `policy->max` when the burst threshold is configured and reached;
otherwise step up when the load reaches the applicable up threshold (the
low-frequency one at or below `freq_cons_low`) and step down when the load
is at or below `down_threshold`. -/
def cs_check_cpu (tun : cs_dbs_tuners) (policy : cpufreq_policy)
    (target_freq rate_mult : Nat)
    (cpus : List (cpu_dbs_common_info × cpu_tick_input)) : cs_decision :=
  let r := get_policy_max_load tun.sampling_rate policy.cur cpus
  let max_load := r.2.1
  if tun.up_threshold_burst ≠ 0 ∧ tun.up_threshold_burst ≤ max_load then
    { target_freq := policy.max,
      rate_mult := if policy.cur < policy.max then tun.sampling_down_factor
                   else rate_mult,
      action := switch_freq policy policy.max, cdbs := r.1 }
  else
    if cs_up_threshold tun policy ≤ max_load then
      scale_freq tun policy target_freq false r.1
    else if max_load ≤ tun.down_threshold then
      scale_freq tun policy target_freq true r.1
    else
      { target_freq := target_freq, rate_mult := rate_mult, action := none,
        cdbs := r.1 }

/-- One serviced request of the ondemand per-cpu sync worker
(`od_sync_thread`, `cpufreq_ondemand.c` lines 203-293), after the worker was
woken with a pending source cpu.  Inputs: the destination's `sync_enabled`
flag, whether taking the policy write semaphore succeeded, the source cpu's
current frequency and stored `max_load` (`none` when the source has no
policy, in which case `sync_freq` and load 0 are used), the destination's
policy and stored load values, and the driver's return value for the
frequency request.  Returns the destination's policy and load values after
the iteration. -/
def od_sync_iteration (tun : od_dbs_tuners) (sync_enabled sema_ok : Bool)
    (src : Option (Nat × Nat)) (dest_policy : Option cpufreq_policy)
    (dest_max_load dest_prev_load : Nat) (driver_ret : Int) :
    Option cpufreq_policy × Nat × Nat :=
  if !sync_enabled then (dest_policy, dest_max_load, dest_prev_load)
  else
    let src_freq := match src with
      | some s => s.1
      | none => tun.sync_freq
    let src_max_load := match src with
      | some s => s.2
      | none => 0
    if !sema_ok then (dest_policy, dest_max_load, dest_prev_load)
    else
      match dest_policy with
      | none => (none, dest_max_load, dest_prev_load)
      | some p =>
          if p.cur < src_freq then
            if 0 ≤ driver_ret then
              if dest_max_load < src_max_load then
                (some { p with cur := src_freq }, src_max_load, src_max_load)
              else
                (some { p with cur := src_freq }, dest_max_load,
                 dest_prev_load)
            else (some p, dest_max_load, dest_prev_load)
          else (some p, dest_max_load, dest_prev_load)

/-- The borrowed target frequency as the spec states it (section 4.4):
`max(dest_policy.max * task_load / 100, source_freq)`, capped by the sync
ceiling when one is configured; in plain (non-wrapping) arithmetic. -/
def spec_borrowed_freq (dest_max task_load src_cur sync_threshold : Nat) :
    Nat :=
  let r := max (dest_max * task_load / 100) src_cur
  if sync_threshold ≠ 0 then min r sync_threshold else r

/-- One serviced request of the cpu-boost migration sync worker
(`boost_mig_sync_thread`, `cpu-boost.c` lines 282-335): with both policies
available it computes the borrowed target frequency
`max(dest_policy.max * task_load / 100, src_policy.cur)` in `u32`
arithmetic, caps it with `sync_threshold` when that is non-zero, skips the
boost when the result is at or below the destination's `cpuinfo.min_freq`,
and otherwise installs it as the destination's boost floor (cleared again
when the destination cpu is offline).  Returns the new `boost_min` and the
request that was applied, if any. -/
def boost_sync_iteration (task_load boost_min sync_threshold : Nat)
    (src_policy dest_policy : Option cpufreq_policy)
    (dest_online : Bool) : Nat × Option Nat :=
  match src_policy, dest_policy with
  | some sp, some dp =>
      let req0 := max (mul32 dp.max task_load / 100) sp.cur
      let req := if sync_threshold ≠ 0 then min req0 sync_threshold else req0
      if req ≤ dp.cpuinfo_min_freq then (boost_min, none)
      else if dest_online then (req, some req)
      else (0, some req)
  | _, _ => (boost_min, none)

/-- Shared-resource state of the ondemand governor instance: the
`gov_enable_cnt` reference count (a `u32`) and the registration state of the
three shared resources `od_init` manages (migration notifier, input handler,
sysfs group). -/
structure od_gov_state where
  gov_enable_cnt : Nat
  notifier_registered : Bool
  input_registered : Bool
  sysfs_registered : Bool
  deriving Repr, DecidableEq

/-- Whether all shared resources of the governor instance are registered. -/
def od_registered (st : od_gov_state) : Bool :=
  st.notifier_registered && st.input_registered && st.sysfs_registered

/-- The `od_init` start hook (`cpufreq_ondemand.c` lines 448-499): the
reference count is incremented first and only the transition to 1 performs
the one-time setup; each of the three registrations can fail, in which case
the earlier ones are rolled back and the reference count is restored.  The
tunable recalibration done on first start does not affect the lifecycle
state and is not modelled here.  Returns the new state and whether the
start succeeded. -/
def od_init (st : od_gov_state) (notifier_ok input_ok sysfs_ok : Bool) :
    od_gov_state × Bool :=
  let cnt := add32 st.gov_enable_cnt 1
  if cnt ≠ 1 then ({ st with gov_enable_cnt := cnt }, true)
  else if !notifier_ok then
    ({ st with gov_enable_cnt := sub32 cnt 1 }, false)
  else if !input_ok then
    ({ st with
        gov_enable_cnt := sub32 cnt 1
        notifier_registered := false }, false)
  else if !sysfs_ok then
    ({ st with
        gov_enable_cnt := sub32 cnt 1
        notifier_registered := false
        input_registered := false }, false)
  else
    ({ gov_enable_cnt := cnt, notifier_registered := true,
       input_registered := true, sysfs_registered := true }, true)

/-- The `od_exit` stop hook (lines 501-525) restricted to the shared
lifecycle state: the reference count is decremented and only the transition
to 0 tears the shared resources down.  (The per-policy `sync_enabled`
clearing and `cur_policy` reset concern per-cpu state and are modelled with
the sync worker.) -/
def od_exit (st : od_gov_state) : od_gov_state :=
  let cnt := sub32 st.gov_enable_cnt 1
  if cnt ≠ 0 then { st with gov_enable_cnt := cnt }
  else { gov_enable_cnt := 0, notifier_registered := false,
         input_registered := false, sysfs_registered := false }

/-- Lifecycle event of a governor instance: a cpu start (carrying the
success of each of the three resource registrations as an oracle) or a cpu
stop. -/
inductive gov_event where
  | start (notifier_ok input_ok sysfs_ok : Bool)
  | stop
  deriving Repr, DecidableEq

/-- Whether an `od_init` call reaches the one-time setup and completes it:
the incremented count is 1 and all three registrations succeed. -/
def od_init_does_setup (st : od_gov_state) (nok iok sok : Bool) : Bool :=
  (add32 st.gov_enable_cnt 1 == 1) && nok && iok && sok

/-- Whether an `od_exit` call reaches the one-time teardown: the decremented
count is 0. -/
def od_exit_does_teardown (st : od_gov_state) : Bool :=
  sub32 st.gov_enable_cnt 1 == 0

/-- One lifecycle event applied to the shared state. -/
def od_step (st : od_gov_state) : gov_event → od_gov_state
  | .start nok iok sok => (od_init st nok iok sok).1
  | .stop => od_exit st

/-- A sequence of lifecycle events applied to the shared state, counting how
many times the one-time setup and the one-time teardown were performed. -/
def od_run : od_gov_state → List gov_event → od_gov_state × Nat × Nat
  | st, [] => (st, 0, 0)
  | st, gov_event.start nok iok sok :: rest =>
      let r := od_run (od_init st nok iok sok).1 rest
      (r.1, (if od_init_does_setup st nok iok sok then 1 else 0) + r.2.1,
       r.2.2)
  | st, gov_event.stop :: rest =>
      let r := od_run (od_exit st) rest
      (r.1, r.2.1, (if od_exit_does_teardown st then 1 else 0) + r.2.2)

/-- The invariant of the reference-counted lifecycle: the three shared
registrations move in lockstep and are present exactly when the reference
count is positive. -/
def od_lifecycle_invariant (st : od_gov_state) : Prop :=
  st.notifier_registered = st.input_registered ∧
  st.input_registered = st.sysfs_registered ∧
  (st.notifier_registered = true ↔ 1 ≤ st.gov_enable_cnt)

/-- Lifecycle errors of the governor state machine (spec section 7). -/
inductive gov_error where
  | NotRunning
  | AlreadyRunning
  | ResourceExhausted
  deriving Repr, DecidableEq

/-- Modelled from the spec: the per-cpu governor lifecycle dispatch of the
cpufreq core (`__cpufreq_governor` in the repository's
`drivers/cpufreq/cpufreq.c`, which is not under `src/`).  Following spec
sections 4.5, 7 and 8, it tracks whether the governor runs on the cpu and
rejects lifecycle misuse without invoking the governor callback: `START`
while running is `AlreadyRunning`, `STOP` while stopped is `NotRunning`; an
accepted `START` runs the in-repo `od_init` path (whose failure aborts the
start as `ResourceExhausted`), and an accepted `STOP` runs the in-repo
`od_exit` teardown path.  Returns the operation result, the new running
flag and the new shared state. -/
def cpufreq_governor_dispatch (running : Bool) (st : od_gov_state) :
    gov_event → Except gov_error Unit × Bool × od_gov_state
  | .start nok iok sok =>
      if running then (.error .AlreadyRunning, running, st)
      else
        let r := od_init st nok iok sok
        if r.2 then (.ok (), true, r.1)
        else (.error .ResourceExhausted, false, r.1)
  | .stop =>
      if running then (.ok (), false, od_exit st)
      else (.error .NotRunning, false, st)

/-- The interactive governor's `freq_to_target_loads` lookup
(`cpufreq_userspace.c`, interactive part, `freq_to_val` macro at lines
346-363): the flattened table alternates `target, freq, target, freq, ...,
target`; starting at the first target, skip forward two entries while the
breakpoint frequency that follows is at or below the requested one.  A
well-formed table always has odd length; on the empty table this embedding
returns 0. -/
def freq_to_target_loads : List Nat → Nat → Nat
  | [], _ => 0
  | [t], _ => t
  | t :: f :: rest, freq =>
      if f ≤ freq then freq_to_target_loads rest freq else t

/-- Modelled from the spec: resolution of a target against the driver's
discrete frequency table with the lowest-not-less-than relation
(`cpufreq_frequency_table_target` with `CPUFREQ_RELATION_L`; the function
lives in the repository's `drivers/cpufreq/freq_table.c`, which is not
under `src/`).  Per spec section 4.3 the request is resolved to the lowest
table frequency not less than the target; when every table frequency is
below the target the highest one is used, so resolution only fails on an
empty table.  The table is in ascending order. -/
def table_L : List Nat → Nat → Option Nat
  | [], _ => none
  | [f], _ => some f
  | f :: g :: rest, t =>
      if t ≤ f then some f else table_L (g :: rest) t

/-- Modelled from the spec: resolution of a target against the driver's
discrete frequency table with the highest-not-exceeding relation
(`cpufreq_frequency_table_target` with `CPUFREQ_RELATION_H`, not under
`src/`).  Per spec section 4.3 the request is resolved to the highest table
frequency not exceeding the target; when every table frequency is above the
target the lowest one is used, so resolution only fails on an empty
table. -/
def table_H : List Nat → Nat → Option Nat
  | [], _ => none
  | [f], _ => some f
  | f :: g :: rest, t =>
      if t < g then some f else table_H (g :: rest) t

/-- The bisection loop of the interactive governor's `choose_freq`
(`cpufreq_userspace.c` lines 387-451), with explicit fuel standing for the
iterations of the C `do { } while (freq != prevfreq)` loop (`none` means
the fuel ran out before the loop exited).  `freq` is the loop variable at
the start of an iteration (so it equals the C `prevfreq` after the first
statement), `freqmin`/`freqmax` are the known-too-low and known-fast-enough
bounds, initially `0` and `~0`.  Each iteration resolves
`loadadjfreq / target_load(freq)` with the lowest-not-less-than relation
and narrows the bracket exactly as the C code does. -/
def choose_freq_loop (T tl_list : List Nat) (loadadjfreq : Nat) :
    Nat → Nat → Nat → Nat → Option Nat
  | 0, _, _, _ => none
  | fuel + 1, freq, freqmin, freqmax =>
      let tl := freq_to_target_loads tl_list freq
      match table_L T (loadadjfreq / tl) with
      | none => some freq
      | some f1 =>
          if freq < f1 then
            if freqmax ≤ f1 then
              match table_H T (freqmax - 1) with
              | none => some f1
              | some f2 =>
                  if f2 = freq then some freqmax
                  else choose_freq_loop T tl_list loadadjfreq fuel f2 freq
                    freqmax
            else choose_freq_loop T tl_list loadadjfreq fuel f1 freq freqmax
          else if f1 < freq then
            if f1 ≤ freqmin then
              match table_L T (freqmin + 1) with
              | none => some f1
              | some f2 =>
                  if f2 = freq then some f2
                  else choose_freq_loop T tl_list loadadjfreq fuel f2 freqmin
                    freq
            else choose_freq_loop T tl_list loadadjfreq fuel f1 freqmin freq
          else some f1

/-- The interactive governor's `choose_freq` (lines 372-454): below or at
the `freq_calc_thresh` corner the frequency is scaled linearly between the
`cpuinfo` bounds using the computed load; otherwise the frequency/target
load table is bisected starting from the policy's current frequency with
the bracket `[0, ~0]`. -/
def choose_freq (T tl_list : List Nat) (freq_calc_thresh : Nat)
    (policy : cpufreq_policy) (fuel : Nat) (loadadjfreq cpu_load : Nat) :
    Option Nat :=
  if policy.cur ≤ freq_calc_thresh then
    some (add32 policy.cpuinfo_min_freq
      (mul32 cpu_load
        (sub32 policy.cpuinfo_max_freq policy.cpuinfo_min_freq) / 100))
  else choose_freq_loop T tl_list loadadjfreq fuel policy.cur 0 U32MAX

end Hammerhead

namespace Hammerhead

lemma fresh_load_le_100 (c : cpu_dbs_common_info) (t : cpu_tick_input)
    (h : c.prev_load ≤ 100) : fresh_load c t ≤ 100 := by
  unfold fresh_load
  set i := sub64to32 t.cur_idle_time c.prev_cpu_idle with hi
  set w := sub64to32 t.cur_wall_time c.prev_cpu_wall with hw
  by_cases h0 : w = 0
  · simp [h0, h]
  · simp only [h0, if_false]
    by_cases h1 : w < i
    · simp only [h1, if_true]
      split <;> omega
    · simp only [h1, if_false]
      have hwpos : 0 < w := Nat.pos_of_ne_zero h0
      have hiw : i ≤ w := Nat.le_of_not_lt h1
      calc m32 (100 * (w - i)) / w ≤ 100 * (w - i) / w := by
            exact Nat.div_le_div_right (Nat.mod_le _ _)
        _ ≤ 100 * w / w := by
            exact Nat.div_le_div_right (Nat.mul_le_mul_left _ (Nat.sub_le _ _))
        _ = 100 := Nat.mul_div_cancel 100 hwpos

lemma cpu_sample_step_bounds (sr : Nat) (c : cpu_dbs_common_info)
    (t : cpu_tick_input) (h : c.prev_load ≤ 100) :
    (cpu_sample_step sr c t).2 ≤ 100 ∧
    (cpu_sample_step sr c t).1.prev_load ≤ 100 := by
  have hf := fresh_load_le_100 c t h
  unfold cpu_sample_step
  dsimp only
  split <;> simp_all

lemma get_policy_max_load_bounds (sr pc : Nat)
    (cpus : List (cpu_dbs_common_info × cpu_tick_input))
    (hprev : ∀ p ∈ cpus, p.1.prev_load ≤ 100) :
    (get_policy_max_load sr pc cpus).2.1 ≤ 100 ∧
    ∀ c' ∈ (get_policy_max_load sr pc cpus).1, c'.prev_load ≤ 100 := by
  induction cpus with
  | nil => simp [get_policy_max_load]
  | cons p rest ih =>
      have hp : p.1.prev_load ≤ 100 := hprev p (by simp)
      have hrest : ∀ q ∈ rest, q.1.prev_load ≤ 100 := by
        intro q hq; exact hprev q (by simp [hq])
      have hs := cpu_sample_step_bounds sr p.1 p.2 hp
      have ihr := ih hrest
      unfold get_policy_max_load
      obtain ⟨c, t⟩ := p
      dsimp only
      constructor
      · exact max_le hs.1 ihr.1
      · intro c' hc'
        rcases List.mem_cons.mp hc' with h1 | h1
        · exact h1 ▸ hs.2
        · exact ihr.2 c' h1

/-- C1: on every sampling tick of `get_policy_max_load`, every per-cpu load
and the policy-wide maximum that the function returns lie in `[0, 100]`
(the lower bound is inherent to `Nat`), the stored `prev_load` of every cpu
stays in `[0, 100]` provided it was there before the tick, and the governor
start path (`cpufreq_governor_dbs`, `CPUFREQ_GOV_START`) initializes
`prev_load` to 0.  This covers the zero-wall-delta branch (previous load
reused, no division) and the `idle_delta > wall_delta` branch (clamped to 0
or 100). -/
theorem C1_load_bounds (sr pc : Nat)
    (cpus : List (cpu_dbs_common_info × cpu_tick_input))
    (hprev : ∀ p ∈ cpus, p.1.prev_load ≤ 100) :
    (∀ p ∈ cpus, (cpu_sample_step sr p.1 p.2).2 ≤ 100) ∧
    (get_policy_max_load sr pc cpus).2.1 ≤ 100 ∧
    (∀ c' ∈ (get_policy_max_load sr pc cpus).1, c'.prev_load ≤ 100) ∧
    (∀ c idle wall, (gov_start_cdbs c idle wall).prev_load = 0) := by
  refine ⟨?_, (get_policy_max_load_bounds sr pc cpus hprev).1,
         (get_policy_max_load_bounds sr pc cpus hprev).2, ?_⟩
  · intro p hp
    exact (cpu_sample_step_bounds sr p.1 p.2 (hprev p hp)).1
  · intro c idle wall
    rfl

/-- Witness for C1 at a concrete tick: one cpu with stored previous load 50,
idle delta 20 out of a wall delta of 100. -/
theorem C1_load_bounds_witness :
    (∀ p ∈ [((⟨0, 0, 50, 0⟩ : cpu_dbs_common_info),
             (⟨20, 100, -1⟩ : cpu_tick_input))], p.1.prev_load ≤ 100) ∧
    ((∀ p ∈ [((⟨0, 0, 50, 0⟩ : cpu_dbs_common_info),
              (⟨20, 100, -1⟩ : cpu_tick_input))],
        (cpu_sample_step 40000 p.1 p.2).2 ≤ 100) ∧
     (get_policy_max_load 40000 1000
        [(⟨0, 0, 50, 0⟩, ⟨20, 100, -1⟩)]).2.1 ≤ 100 ∧
     (∀ c' ∈ (get_policy_max_load 40000 1000
        [(⟨0, 0, 50, 0⟩, ⟨20, 100, -1⟩)]).1, c'.prev_load ≤ 100) ∧
     (∀ c idle wall, (gov_start_cdbs c idle wall).prev_load = 0)) :=
  ⟨by decide, C1_load_bounds 40000 1000 _ (by decide)⟩

/-- C6: in the load computation, whenever the wall delta exceeds twice the
sampling rate and the freshly computed load is below the stored previous
load, the previous load is used for this tick and the stored previous load
is reset to 0; in every other case the stored previous load becomes the
freshly computed load.  Moreover a cpu whose stored previous load is 0
always reports the fresh load on the next tick, so the override lasts one
tick only. -/
theorem C6_load_burst_grace_window (sr : Nat) (c : cpu_dbs_common_info)
    (t : cpu_tick_input) :
    (mul32 sr 2 < sub64to32 t.cur_wall_time c.prev_cpu_wall ∧
        fresh_load c t < c.prev_load →
      (cpu_sample_step sr c t).2 = c.prev_load ∧
      (cpu_sample_step sr c t).1.prev_load = 0) ∧
    (¬(mul32 sr 2 < sub64to32 t.cur_wall_time c.prev_cpu_wall ∧
        fresh_load c t < c.prev_load) →
      (cpu_sample_step sr c t).2 = fresh_load c t ∧
      (cpu_sample_step sr c t).1.prev_load = fresh_load c t) ∧
    (∀ c' t', c'.prev_load = 0 →
      (cpu_sample_step sr c' t').2 = fresh_load c' t') := by
  refine ⟨?_, ?_, ?_⟩
  · intro h
    simp [cpu_sample_step, if_pos h]
  · intro h
    simp [cpu_sample_step, if_neg h]
  · intro c' t' h0
    have : ¬(mul32 sr 2 < sub64to32 t'.cur_wall_time c'.prev_cpu_wall ∧
        fresh_load c' t' < c'.prev_load) := by
      rintro ⟨-, hlt⟩; omega
    simp [cpu_sample_step, if_neg this]

/-- Witness for C6: sampling rate 10 so twice the rate is 20, wall delta 100,
fresh load 20 below the stored previous load 50: the burst branch fires,
reports 50 and clears the stored load. -/
theorem C6_load_burst_grace_window_witness :
    (mul32 10 2 < sub64to32 100 0 ∧
      fresh_load ⟨0, 0, 50, 0⟩ ⟨80, 100, -1⟩ < 50) ∧
    ((cpu_sample_step 10 ⟨0, 0, 50, 0⟩ ⟨80, 100, -1⟩).2 = 50 ∧
     (cpu_sample_step 10 ⟨0, 0, 50, 0⟩ ⟨80, 100, -1⟩).1.prev_load = 0) :=
  ⟨by decide,
   (C6_load_burst_grace_window 10 ⟨0, 0, 50, 0⟩ ⟨80, 100, -1⟩).1 (by decide)⟩

lemma mul32_eq_of_lt {a b : Nat} (h : a * b < U32) : mul32 a b = a * b :=
  Nat.mod_eq_of_lt h

lemma add32_eq_of_lt {a b : Nat} (h : a + b < U32) : add32 a b = a + b :=
  Nat.mod_eq_of_lt h

lemma sub32_eq_of_le {a b : Nat} (hba : b ≤ a) (ha : a < U32) :
    sub32 a b = a - b := by
  unfold sub32
  rw [Nat.mod_eq_of_lt ha, Nat.mod_eq_of_lt (lt_of_le_of_lt hba ha)]
  have h1 : a + U32 - b = U32 + (a - b) := by omega
  rw [h1, Nat.add_mod_left, Nat.mod_eq_of_lt (by omega)]

/-- C3: for the ondemand governor with `load_scaling` disabled, whenever the
averaged load-frequency product reaches `up_threshold * policy->cur`
(without `u32` overflow), the decision bursts to `policy->max` via
`switch_freq` — so a driver request for `policy->max` with the closest
relation is issued whenever the policy is not already at its maximum — and
when `policy->cur < policy->max` the tick-rate multiplier becomes
`sampling_down_factor` for subsequent ticks. -/
theorem C3_ondemand_threshold_burst (tun : od_dbs_tuners)
    (policy : cpufreq_policy) (rate_mult num_online : Nat)
    (cpus : List (cpu_dbs_common_info × cpu_tick_input))
    (others : List other_cpu_info)
    (hls : tun.load_scaling = 0)
    (hov : tun.up_threshold * policy.cur < U32)
    (hth : tun.up_threshold * policy.cur ≤
      (get_policy_max_load tun.sampling_rate policy.cur cpus).2.2) :
    (od_check_cpu tun policy rate_mult num_online cpus others).action =
      switch_freq policy policy.max ∧
    (policy.cur < policy.max →
      (od_check_cpu tun policy rate_mult num_online cpus others).action =
        some (policy.max, freq_relation.C) ∧
      (od_check_cpu tun policy rate_mult num_online cpus others).rate_mult =
        tun.sampling_down_factor) := by
  have hm : mul32 tun.up_threshold policy.cur = tun.up_threshold * policy.cur :=
    mul32_eq_of_lt hov
  have key : od_check_cpu tun policy rate_mult num_online cpus others =
      { rate_mult := if policy.cur < policy.max then tun.sampling_down_factor
                     else rate_mult,
        action := switch_freq policy policy.max,
        cdbs := (get_policy_max_load tun.sampling_rate policy.cur cpus).1 } := by
    unfold od_check_cpu
    rw [if_neg (by simp [hls]), if_pos (by rw [hm]; exact hth)]
  rw [key]
  refine ⟨rfl, fun hlt => ⟨?_, ?_⟩⟩
  · simp [switch_freq, Nat.ne_of_lt hlt]
  · simp [hlt]

/-- Witness for C3: up threshold 80, current frequency 1000 kHz, one cpu at
full load so the load-frequency product is 100000 which reaches 80000. -/
theorem C3_ondemand_threshold_burst_witness :
    ((⟨40000, 3, 80, 80, 80, 10, 3, 0, 0, 0, 1, 0, 0⟩ :
        od_dbs_tuners).load_scaling = 0 ∧
     (80 * 1000 : Nat) < U32 ∧
     (80 * 1000 : Nat) ≤
       (get_policy_max_load 40000 1000 [(⟨0, 0, 0, 0⟩, ⟨0, 100, -1⟩)]).2.2 ∧
     (1000 : Nat) < 2000) ∧
    ((od_check_cpu ⟨40000, 3, 80, 80, 80, 10, 3, 0, 0, 0, 1, 0, 0⟩
        ⟨1000, 500, 2000, 500, 2000⟩ 1 1
        [(⟨0, 0, 0, 0⟩, ⟨0, 100, -1⟩)] []).action =
      some (2000, freq_relation.C) ∧
     (od_check_cpu ⟨40000, 3, 80, 80, 80, 10, 3, 0, 0, 0, 1, 0, 0⟩
        ⟨1000, 500, 2000, 500, 2000⟩ 1 1
        [(⟨0, 0, 0, 0⟩, ⟨0, 100, -1⟩)] []).rate_mult = 3) :=
  ⟨⟨by decide, by decide, by decide, by decide⟩,
   (C3_ondemand_threshold_burst ⟨40000, 3, 80, 80, 80, 10, 3, 0, 0, 0, 1, 0, 0⟩
      ⟨1000, 500, 2000, 500, 2000⟩ 1 1 [(⟨0, 0, 0, 0⟩, ⟨0, 100, -1⟩)] []
      (by decide) (by decide) (by decide)).2 (by decide)⟩

/-- Counterexample for C4: with `load_scaling` enabled, up threshold 80 and an
aggregated load of exactly 80, `od_check_cpu` requests `policy->max`
(2000 kHz), not the linear-scaling value
`min + load% * (max - min) / 100 = 1700 kHz`: the claimed formula does not
apply to every aggregated load value. -/
theorem C4_counterexample :
    (od_check_cpu ⟨40000, 3, 80, 80, 80, 10, 3, 0, 0, 0, 1, 1, 0⟩
        ⟨1000, 500, 2000, 500, 2000⟩ 1 1
        [(⟨0, 0, 0, 0⟩, ⟨20, 100, -1⟩)] []).action =
      some (2000, freq_relation.C) ∧
    (get_policy_max_load 40000 1000
        [(⟨0, 0, 0, 0⟩, ⟨20, 100, -1⟩)]).2.1 = 80 ∧
    (500 + 80 * (2000 - 500) / 100 : Nat) = 1700 ∧
    (2000 : Nat) ≠ 1700 := by
  refine ⟨by decide, by decide, by decide, by decide⟩

/-- C4 (amended): with `load_scaling` enabled the ondemand decision skips the
averaged threshold logic; when the aggregated load is below `up_threshold`
the target is `cpuinfo.min + load% * (cpuinfo.max - cpuinfo.min) / 100` with
the tick-rate multiplier reset to 1, but when the load reaches
`up_threshold` the decision bursts to `policy->max` instead (setting the
multiplier to `sampling_down_factor` when the policy is below its maximum). -/
theorem C4_load_scaling_amended (tun : od_dbs_tuners)
    (policy : cpufreq_policy) (rate_mult num_online : Nat)
    (cpus : List (cpu_dbs_common_info × cpu_tick_input))
    (others : List other_cpu_info)
    (hls : tun.load_scaling ≠ 0)
    (hmm : policy.cpuinfo_min_freq ≤ policy.cpuinfo_max_freq)
    (hsz : policy.cpuinfo_max_freq < 2 ^ 25)
    (hprev : ∀ p ∈ cpus, p.1.prev_load ≤ 100) :
    ((get_policy_max_load tun.sampling_rate policy.cur cpus).2.1 <
        tun.up_threshold →
      (od_check_cpu tun policy rate_mult num_online cpus others).action =
        some (policy.cpuinfo_min_freq +
          (get_policy_max_load tun.sampling_rate policy.cur cpus).2.1 *
            (policy.cpuinfo_max_freq - policy.cpuinfo_min_freq) / 100,
          freq_relation.C) ∧
      (od_check_cpu tun policy rate_mult num_online cpus others).rate_mult =
        1) ∧
    (tun.up_threshold ≤
        (get_policy_max_load tun.sampling_rate policy.cur cpus).2.1 →
      (od_check_cpu tun policy rate_mult num_online cpus others).action =
        switch_freq policy policy.max ∧
      (policy.cur < policy.max →
        (od_check_cpu tun policy rate_mult num_online cpus others).rate_mult =
          tun.sampling_down_factor)) := by
  have hU : U32 = 2 ^ 32 := rfl
  have hml : (get_policy_max_load tun.sampling_rate policy.cur cpus).2.1 ≤ 100 :=
    (get_policy_max_load_bounds tun.sampling_rate policy.cur cpus hprev).1
  set ml := (get_policy_max_load tun.sampling_rate policy.cur cpus).2.1 with hmldef
  have hsub : sub32 policy.cpuinfo_max_freq policy.cpuinfo_min_freq =
      policy.cpuinfo_max_freq - policy.cpuinfo_min_freq :=
    sub32_eq_of_le hmm (by omega)
  have hmul : mul32 ml (policy.cpuinfo_max_freq - policy.cpuinfo_min_freq) =
      ml * (policy.cpuinfo_max_freq - policy.cpuinfo_min_freq) := by
    apply mul32_eq_of_lt
    have : ml * (policy.cpuinfo_max_freq - policy.cpuinfo_min_freq) ≤
        100 * (2 ^ 25) := by
      apply Nat.mul_le_mul hml
      omega
    omega
  have hadd : add32 policy.cpuinfo_min_freq
      (ml * (policy.cpuinfo_max_freq - policy.cpuinfo_min_freq) / 100) =
      policy.cpuinfo_min_freq +
        ml * (policy.cpuinfo_max_freq - policy.cpuinfo_min_freq) / 100 := by
    apply add32_eq_of_lt
    have h1 : ml * (policy.cpuinfo_max_freq - policy.cpuinfo_min_freq) / 100 ≤
        ml * (policy.cpuinfo_max_freq - policy.cpuinfo_min_freq) :=
      Nat.div_le_self _ _
    have h2 : ml * (policy.cpuinfo_max_freq - policy.cpuinfo_min_freq) ≤
        100 * (2 ^ 25) := by
      apply Nat.mul_le_mul hml
      omega
    omega
  constructor
  · intro hlt
    have key : od_check_cpu tun policy rate_mult num_online cpus others =
        { rate_mult := 1,
          action := some (add32 policy.cpuinfo_min_freq
            (mul32 ml (sub32 policy.cpuinfo_max_freq policy.cpuinfo_min_freq) /
              100), freq_relation.C),
          cdbs := (get_policy_max_load tun.sampling_rate policy.cur cpus).1 } := by
      unfold od_check_cpu
      rw [if_pos hls, if_neg (by omega)]
    rw [key, hsub, hmul, hadd]
    exact ⟨rfl, rfl⟩
  · intro hge
    have key : od_check_cpu tun policy rate_mult num_online cpus others =
        { rate_mult := if policy.cur < policy.max then tun.sampling_down_factor
                       else rate_mult,
          action := switch_freq policy policy.max,
          cdbs := (get_policy_max_load tun.sampling_rate policy.cur cpus).1 } := by
      unfold od_check_cpu
      rw [if_pos hls, if_pos hge]
    rw [key]
    exact ⟨rfl, fun hlt => by simp [hlt]⟩

/-- Witness for C4 (amended): load 50 below the threshold 80 yields the
linear target `500 + 50 * 1500 / 100 = 1250` kHz with multiplier 1. -/
theorem C4_load_scaling_amended_witness :
    ((⟨40000, 3, 80, 80, 80, 10, 3, 0, 0, 0, 1, 1, 0⟩ :
        od_dbs_tuners).load_scaling ≠ 0 ∧
     (500 : Nat) ≤ 2000 ∧ (2000 : Nat) < 2 ^ 25 ∧
     (get_policy_max_load 40000 1000
        [(⟨0, 0, 0, 0⟩, ⟨50, 100, -1⟩)]).2.1 < 80) ∧
    ((od_check_cpu ⟨40000, 3, 80, 80, 80, 10, 3, 0, 0, 0, 1, 1, 0⟩
        ⟨1000, 500, 2000, 500, 2000⟩ 7 1
        [(⟨0, 0, 0, 0⟩, ⟨50, 100, -1⟩)] []).action =
      some (500 +
        (get_policy_max_load 40000 1000
          [(⟨0, 0, 0, 0⟩, ⟨50, 100, -1⟩)]).2.1 * (2000 - 500) / 100,
        freq_relation.C) ∧
     (od_check_cpu ⟨40000, 3, 80, 80, 80, 10, 3, 0, 0, 0, 1, 1, 0⟩
        ⟨1000, 500, 2000, 500, 2000⟩ 7 1
        [(⟨0, 0, 0, 0⟩, ⟨50, 100, -1⟩)] []).rate_mult = 1) :=
  ⟨⟨by decide, by decide, by decide, by decide⟩,
   (C4_load_scaling_amended ⟨40000, 3, 80, 80, 80, 10, 3, 0, 0, 0, 1, 1, 0⟩
      ⟨1000, 500, 2000, 500, 2000⟩ 7 1 [(⟨0, 0, 0, 0⟩, ⟨50, 100, -1⟩)] []
      (by decide) (by decide) (by decide) (by decide)).1 (by decide)⟩

lemma sub32_eq_of_lt {a b : Nat} (hab : a < b) (hb : b < U32) :
    sub32 a b = a + U32 - b := by
  unfold sub32
  rw [Nat.mod_eq_of_lt (lt_trans hab hb), Nat.mod_eq_of_lt hb]
  exact Nat.mod_eq_of_lt (by omega)

lemma toInt32_of_lt {a : Nat} (h : a < 2 ^ 31) : toInt32 a = (a : Int) := by
  unfold toInt32
  rw [Nat.mod_eq_of_lt (by unfold U32; omega)]
  rw [if_pos (by exact_mod_cast h)]

lemma int2u32_of_small {i : Int} (h0 : 0 ≤ i) (h1 : i < (U32 : Int)) :
    int2u32 i = i.toNat := by
  unfold int2u32
  rw [Int.emod_eq_of_lt h0 h1]

lemma clamp_int32_down_eq {t d lo hi : Nat} (ht : t < 2 ^ 31) (hd : d < 2 ^ 31)
    (hlo : lo < 2 ^ 31) (hhi : hi < 2 ^ 31) (hthi : t ≤ hi) (hlohi : lo ≤ hi) :
    clamp_int32 (sub32 t d) lo hi = max lo (t - d) := by
  have hU : U32 = 2 ^ 32 := rfl
  by_cases hc : d ≤ t
  · rw [sub32_eq_of_le hc (by omega)]
    unfold clamp_int32
    rw [toInt32_of_lt (by omega), toInt32_of_lt hlo, toInt32_of_lt hhi]
    rw [int2u32_of_small (by omega) (by omega)]
    omega
  · rw [sub32_eq_of_lt (by omega) (by omega)]
    unfold clamp_int32
    have hv : toInt32 (t + U32 - d) = (t : Int) - d := by
      unfold toInt32
      rw [Nat.mod_eq_of_lt (by omega), if_neg (by omega)]
      omega
    rw [hv, toInt32_of_lt hlo, toInt32_of_lt hhi]
    rw [int2u32_of_small (by omega) (by omega)]
    omega

lemma clamp_int32_up_eq {t d lo hi : Nat} (ht : t < 2 ^ 30) (hd : d < 2 ^ 30)
    (hlo : lo < 2 ^ 31) (hhi : hi < 2 ^ 31) (hlot : lo ≤ t) :
    clamp_int32 (add32 t d) lo hi = min (t + d) hi := by
  have hU : U32 = 2 ^ 32 := rfl
  rw [add32_eq_of_lt (by omega)]
  unfold clamp_int32
  rw [toInt32_of_lt (by omega), toInt32_of_lt hlo, toInt32_of_lt hhi]
  rw [int2u32_of_small (by omega) (by push_cast; omega)]
  omega

lemma scale_freq_down_eq (tun : cs_dbs_tuners) (policy : cpufreq_policy)
    (target_freq : Nat) (cdbs : List cpu_dbs_common_info)
    (hne : policy.cur ≠ policy.min) (hmm : policy.min ≤ policy.max)
    (hmax : policy.max < 2 ^ 25) (hstep : tun.freq_down_step ≤ 100)
    (htar : target_freq ≤ policy.max) :
    scale_freq tun policy target_freq true cdbs =
      { target_freq := max policy.min
          (target_freq - policy.max * tun.freq_down_step / 100),
        rate_mult := 1,
        action := some (max policy.min
          (target_freq - policy.max * tun.freq_down_step / 100),
          freq_relation.C),
        cdbs := cdbs } := by
  have hU : U32 = 2 ^ 32 := rfl
  have hmul : mul32 policy.max tun.freq_down_step =
      policy.max * tun.freq_down_step := by
    apply mul32_eq_of_lt
    have := Nat.mul_le_mul (Nat.le_of_lt hmax) hstep
    omega
  have hdle : policy.max * tun.freq_down_step / 100 ≤ policy.max := by
    have h1 : policy.max * tun.freq_down_step ≤ policy.max * 100 :=
      Nat.mul_le_mul_left _ hstep
    have h2 : policy.max * tun.freq_down_step / 100 ≤ policy.max * 100 / 100 :=
      Nat.div_le_div_right h1
    rwa [Nat.mul_div_cancel _ (by omega)] at h2
  unfold scale_freq
  rw [if_neg (by simpa using hne)]
  simp only [Bool.false_eq_true, if_true, if_false, reduceIte]
  rw [hmul]
  rw [clamp_int32_down_eq (by omega) (by omega) (by omega) (by omega) htar hmm]

lemma scale_freq_up_eq (tun : cs_dbs_tuners) (policy : cpufreq_policy)
    (target_freq : Nat) (cdbs : List cpu_dbs_common_info)
    (hne : policy.cur ≠ policy.max) (hmm : policy.min ≤ policy.max)
    (hmax : policy.max < 2 ^ 25) (hstep : tun.freq_up_step ≤ 100)
    (htlo : policy.min ≤ target_freq) (htar : target_freq ≤ policy.max) :
    scale_freq tun policy target_freq false cdbs =
      { target_freq := min
          (target_freq + policy.max * tun.freq_up_step / 100) policy.max,
        rate_mult := 1,
        action := some (min
          (target_freq + policy.max * tun.freq_up_step / 100) policy.max,
          freq_relation.H),
        cdbs := cdbs } := by
  have hU : U32 = 2 ^ 32 := rfl
  have hmul : mul32 policy.max tun.freq_up_step =
      policy.max * tun.freq_up_step := by
    apply mul32_eq_of_lt
    have := Nat.mul_le_mul (Nat.le_of_lt hmax) hstep
    omega
  have hdle : policy.max * tun.freq_up_step / 100 ≤ policy.max := by
    have h1 : policy.max * tun.freq_up_step ≤ policy.max * 100 :=
      Nat.mul_le_mul_left _ hstep
    have h2 : policy.max * tun.freq_up_step / 100 ≤ policy.max * 100 / 100 :=
      Nat.div_le_div_right h1
    rwa [Nat.mul_div_cancel _ (by omega)] at h2
  unfold scale_freq
  rw [if_neg (by simpa using hne)]
  simp only [Bool.false_eq_true, if_true, if_false, reduceIte]
  rw [hmul]
  rw [clamp_int32_up_eq (by omega) (by omega) (by omega) (by omega) htlo]

/-- C5: for the conservative governor on a tick where the burst threshold
does not fire, the tracked target frequency moves up by
`freq_up_step% * policy->max` when the load reaches the applicable up
threshold, moves down by `freq_down_step% * policy->max` when the load is at
or below `down_threshold`, every issued request is clamped into
`[policy->min, policy->max]`, and in particular with load
`down_threshold - 1` and the current frequency above `policy->min` the new
target is strictly below the previous one and bounded below by
`policy->min`. -/
theorem C5_conservative_stepping (tun : cs_dbs_tuners)
    (policy : cpufreq_policy) (target_freq rate_mult : Nat)
    (cpus : List (cpu_dbs_common_info × cpu_tick_input))
    (hburst : tun.up_threshold_burst = 0 ∨
      (get_policy_max_load tun.sampling_rate policy.cur cpus).2.1 <
        tun.up_threshold_burst)
    (hmm : policy.min ≤ policy.max) (hmax : policy.max < 2 ^ 25)
    (hups : tun.freq_up_step ≤ 100) (hdowns : tun.freq_down_step ≤ 100)
    (htlo : policy.min ≤ target_freq) (hthi : target_freq ≤ policy.max) :
    (cs_up_threshold tun policy ≤
        (get_policy_max_load tun.sampling_rate policy.cur cpus).2.1 →
      policy.cur ≠ policy.max →
      cs_check_cpu tun policy target_freq rate_mult cpus =
        { target_freq := min
            (target_freq + policy.max * tun.freq_up_step / 100) policy.max,
          rate_mult := 1,
          action := some (min
            (target_freq + policy.max * tun.freq_up_step / 100) policy.max,
            freq_relation.H),
          cdbs := (get_policy_max_load tun.sampling_rate policy.cur cpus).1 }) ∧
    ((get_policy_max_load tun.sampling_rate policy.cur cpus).2.1 ≤
        tun.down_threshold →
      (get_policy_max_load tun.sampling_rate policy.cur cpus).2.1 <
        cs_up_threshold tun policy →
      policy.cur ≠ policy.min →
      cs_check_cpu tun policy target_freq rate_mult cpus =
        { target_freq := max policy.min
            (target_freq - policy.max * tun.freq_down_step / 100),
          rate_mult := 1,
          action := some (max policy.min
            (target_freq - policy.max * tun.freq_down_step / 100),
            freq_relation.C),
          cdbs := (get_policy_max_load tun.sampling_rate policy.cur cpus).1 }) ∧
    (∀ f rel, (cs_check_cpu tun policy target_freq rate_mult cpus).action =
        some (f, rel) → policy.min ≤ f ∧ f ≤ policy.max) ∧
    ((get_policy_max_load tun.sampling_rate policy.cur cpus).2.1 =
        tun.down_threshold - 1 →
      1 ≤ tun.down_threshold →
      (get_policy_max_load tun.sampling_rate policy.cur cpus).2.1 <
        cs_up_threshold tun policy →
      target_freq = policy.cur → policy.min < policy.cur →
      100 ≤ policy.max * tun.freq_down_step →
      (cs_check_cpu tun policy target_freq rate_mult cpus).target_freq <
          target_freq ∧
      policy.min ≤
        (cs_check_cpu tun policy target_freq rate_mult cpus).target_freq) := by
  have hnb : ¬(tun.up_threshold_burst ≠ 0 ∧ tun.up_threshold_burst ≤
      (get_policy_max_load tun.sampling_rate policy.cur cpus).2.1) := by
    rcases hburst with h | h
    · rintro ⟨hne, -⟩; exact hne h
    · rintro ⟨-, hle⟩; omega
  have hup_case : cs_up_threshold tun policy ≤
      (get_policy_max_load tun.sampling_rate policy.cur cpus).2.1 →
      cs_check_cpu tun policy target_freq rate_mult cpus =
        scale_freq tun policy target_freq false
          (get_policy_max_load tun.sampling_rate policy.cur cpus).1 := by
    intro h
    unfold cs_check_cpu
    rw [if_neg hnb, if_pos h]
  have hdown_case : (get_policy_max_load tun.sampling_rate policy.cur cpus).2.1 <
      cs_up_threshold tun policy →
      (get_policy_max_load tun.sampling_rate policy.cur cpus).2.1 ≤
        tun.down_threshold →
      cs_check_cpu tun policy target_freq rate_mult cpus =
        scale_freq tun policy target_freq true
          (get_policy_max_load tun.sampling_rate policy.cur cpus).1 := by
    intro h1 h2
    unfold cs_check_cpu
    rw [if_neg hnb, if_neg (by omega), if_pos h2]
  refine ⟨?_, ?_, ?_, ?_⟩
  · intro h hne
    rw [hup_case h]
    exact scale_freq_up_eq tun policy target_freq _ hne hmm hmax hups htlo hthi
  · intro h1 h2 hne
    rw [hdown_case h2 h1]
    exact scale_freq_down_eq tun policy target_freq _ hne hmm hmax hdowns hthi
  · intro f rel hact
    by_cases hb : tun.up_threshold_burst ≠ 0 ∧ tun.up_threshold_burst ≤
        (get_policy_max_load tun.sampling_rate policy.cur cpus).2.1
    · exact absurd hb hnb
    · unfold cs_check_cpu at hact
      rw [if_neg hb] at hact
      by_cases hu : cs_up_threshold tun policy ≤
          (get_policy_max_load tun.sampling_rate policy.cur cpus).2.1
      · rw [if_pos hu] at hact
        by_cases hne : policy.cur = policy.max
        · unfold scale_freq at hact
          rw [if_pos (by simpa using hne)] at hact
          simp at hact
        · rw [scale_freq_up_eq tun policy target_freq _ hne hmm hmax hups
              htlo hthi] at hact
          simp only [Option.some.injEq, Prod.mk.injEq] at hact
          omega
      · rw [if_neg hu] at hact
        by_cases hd : (get_policy_max_load tun.sampling_rate
            policy.cur cpus).2.1 ≤ tun.down_threshold
        · rw [if_pos hd] at hact
          by_cases hne : policy.cur = policy.min
          · unfold scale_freq at hact
            rw [if_pos (by simpa using hne)] at hact
            simp at hact
          · rw [scale_freq_down_eq tun policy target_freq _ hne hmm hmax
                hdowns hthi] at hact
            simp only [Option.some.injEq, Prod.mk.injEq] at hact
            have hdle : policy.max * tun.freq_down_step / 100 ≤ policy.max := by
              have h1 : policy.max * tun.freq_down_step ≤ policy.max * 100 :=
                Nat.mul_le_mul_left _ hdowns
              have h2 : policy.max * tun.freq_down_step / 100 ≤
                  policy.max * 100 / 100 := Nat.div_le_div_right h1
              rwa [Nat.mul_div_cancel _ (by omega)] at h2
            omega
        · rw [if_neg hd] at hact
          simp at hact
  · intro hml h1 hlt htc hcur hstep
    have hne : policy.cur ≠ policy.min := by omega
    have hdc := hdown_case hlt (by omega)
    rw [hdc, scale_freq_down_eq tun policy target_freq _ hne hmm hmax
        hdowns hthi]
    have hdpos : 1 ≤ policy.max * tun.freq_down_step / 100 :=
      Nat.one_le_div_iff (by omega) |>.mpr hstep
    constructor
    · simp only
      omega
    · simp only
      omega

/-- Witness for C5: defaults (down threshold 20, down step 10%), load 19 for
a tick at 1000 kHz inside `[500, 2000]`: the new target 800 kHz is strictly
below the previous 1000 kHz and above the minimum. -/
theorem C5_conservative_stepping_witness :
    (((⟨40000, 1, 80, 0, 60, 20, 5, 10, 0, 0⟩ :
         cs_dbs_tuners).up_threshold_burst = 0 ∨
       (get_policy_max_load 40000 1000
          [(⟨0, 0, 0, 0⟩, ⟨81, 100, -1⟩)]).2.1 < 0) ∧
      (500 : Nat) ≤ 2000 ∧ (2000 : Nat) < 2 ^ 25 ∧
      (5 : Nat) ≤ 100 ∧ (10 : Nat) ≤ 100 ∧
      (500 : Nat) ≤ 1000 ∧ (1000 : Nat) ≤ 2000 ∧
      (get_policy_max_load 40000 1000
         [(⟨0, 0, 0, 0⟩, ⟨81, 100, -1⟩)]).2.1 = 20 - 1 ∧
      (get_policy_max_load 40000 1000
         [(⟨0, 0, 0, 0⟩, ⟨81, 100, -1⟩)]).2.1 <
        cs_up_threshold ⟨40000, 1, 80, 0, 60, 20, 5, 10, 0, 0⟩
          ⟨1000, 500, 2000, 500, 2000⟩ ∧
      (100 : Nat) ≤ 2000 * 10) ∧
    ((cs_check_cpu ⟨40000, 1, 80, 0, 60, 20, 5, 10, 0, 0⟩
        ⟨1000, 500, 2000, 500, 2000⟩ 1000 1
        [(⟨0, 0, 0, 0⟩, ⟨81, 100, -1⟩)]).target_freq < 1000 ∧
     (500 : Nat) ≤
       (cs_check_cpu ⟨40000, 1, 80, 0, 60, 20, 5, 10, 0, 0⟩
         ⟨1000, 500, 2000, 500, 2000⟩ 1000 1
         [(⟨0, 0, 0, 0⟩, ⟨81, 100, -1⟩)]).target_freq) :=
  ⟨⟨Or.inl (by decide), by decide, by decide, by decide, by decide, by decide,
    by decide, by decide, by decide, by decide⟩,
   (C5_conservative_stepping ⟨40000, 1, 80, 0, 60, 20, 5, 10, 0, 0⟩
      ⟨1000, 500, 2000, 500, 2000⟩ 1000 1 [(⟨0, 0, 0, 0⟩, ⟨81, 100, -1⟩)]
      (Or.inl (by decide)) (by decide) (by decide) (by decide) (by decide)
      (by decide) (by decide)).2.2.2
      (by decide) (by decide) (by decide) (by decide) (by decide)
      (by decide)⟩

lemma od_sync_iteration_src_le (tun : od_dbs_tuners)
    (sync_enabled sema_ok : Bool) (src_freq src_max_load : Nat)
    (p : cpufreq_policy) (dest_max_load dest_prev_load : Nat)
    (driver_ret : Int) (hle : src_freq ≤ p.cur) :
    od_sync_iteration tun sync_enabled sema_ok (some (src_freq, src_max_load))
      (some p) dest_max_load dest_prev_load driver_ret =
      (some p, dest_max_load, dest_prev_load) := by
  unfold od_sync_iteration
  cases sync_enabled with
  | false => rfl
  | true =>
      cases sema_ok with
      | false => rfl
      | true =>
          dsimp only [Bool.not_true]
          rw [if_neg (by simp)]
          rw [if_neg (by simp)]
          rw [if_neg (by omega)]

/-- C7: in an iteration of the ondemand per-cpu sync worker, if the borrowed
source frequency is at most the destination policy's current frequency, the
destination policy and the destination's load values are left completely
unchanged; and whatever the inputs, the destination policy's frequency
never decreases. -/
theorem C7_sync_never_decreases (tun : od_dbs_tuners)
    (sync_enabled sema_ok : Bool) (src_freq src_max_load : Nat)
    (p : cpufreq_policy) (dest_max_load dest_prev_load : Nat)
    (driver_ret : Int) :
    (src_freq ≤ p.cur →
      od_sync_iteration tun sync_enabled sema_ok
        (some (src_freq, src_max_load)) (some p) dest_max_load dest_prev_load
        driver_ret = (some p, dest_max_load, dest_prev_load)) ∧
    (∀ q ml pl,
      od_sync_iteration tun sync_enabled sema_ok
        (some (src_freq, src_max_load)) (some p) dest_max_load dest_prev_load
        driver_ret = (some q, ml, pl) → p.cur ≤ q.cur) ∧
    (∀ dp dml dpl,
      od_sync_iteration tun sync_enabled sema_ok none dp dml dpl driver_ret =
        od_sync_iteration tun sync_enabled sema_ok (some (tun.sync_freq, 0))
          dp dml dpl driver_ret) := by
  refine ⟨?_, ?_, fun dp dml dpl => rfl⟩
  · exact od_sync_iteration_src_le tun sync_enabled sema_ok src_freq
      src_max_load p dest_max_load dest_prev_load driver_ret
  · intro q ml pl heq
    by_cases hle : src_freq ≤ p.cur
    · rw [od_sync_iteration_src_le tun sync_enabled sema_ok src_freq
        src_max_load p dest_max_load dest_prev_load driver_ret hle] at heq
      simp only [Prod.mk.injEq, Option.some.injEq] at heq
      exact le_of_eq (by rw [heq.1])
    · unfold od_sync_iteration at heq
      cases sync_enabled with
      | false =>
          simp only [Bool.not_false, if_true, Prod.mk.injEq,
            Option.some.injEq] at heq
          exact le_of_eq (by rw [heq.1])
      | true =>
          cases sema_ok with
          | false =>
              simp only [Bool.not_true, Bool.not_false, Bool.false_eq_true,
                if_false, if_true, Prod.mk.injEq, Option.some.injEq] at heq
              exact le_of_eq (by rw [heq.1])
          | true =>
              dsimp only [Bool.not_true] at heq
              rw [if_neg (by simp), if_neg (by simp),
                if_pos (by omega)] at heq
              by_cases hdr : (0 : Int) ≤ driver_ret
              · rw [if_pos hdr] at heq
                by_cases hml : dest_max_load < src_max_load
                · rw [if_pos hml] at heq
                  simp only [Prod.mk.injEq, Option.some.injEq] at heq
                  have : q.cur = src_freq := by rw [← heq.1]
                  omega
                · rw [if_neg hml] at heq
                  simp only [Prod.mk.injEq, Option.some.injEq] at heq
                  have : q.cur = src_freq := by rw [← heq.1]
                  omega
              · rw [if_neg hdr] at heq
                simp only [Prod.mk.injEq, Option.some.injEq] at heq
                exact le_of_eq (by rw [heq.1])

/-- Witness for C7: borrowed frequency 900 kHz at or below the current
1000 kHz leaves the destination policy untouched. -/
theorem C7_sync_never_decreases_witness :
    ((900 : Nat) ≤ (1000 : Nat)) ∧
    od_sync_iteration ⟨40000, 1, 80, 80, 80, 10, 3, 0, 0, 0, 1, 0, 0⟩ true
      true (some (900, 70)) (some ⟨1000, 500, 2000, 500, 2000⟩) 40 30 0 =
      (some ⟨1000, 500, 2000, 500, 2000⟩, 40, 30) :=
  ⟨by decide,
   (C7_sync_never_decreases ⟨40000, 1, 80, 80, 80, 10, 3, 0, 0, 0, 1, 0, 0⟩
      true true 900 70 ⟨1000, 500, 2000, 500, 2000⟩ 40 30 0).1 (by decide)⟩

/-- C8: for every serviced sync request with both policies available, the
cpu-boost sync worker computes the borrowed target frequency as
`max(dest_policy.max * task_load / 100, source_freq)`, capped by the
configured sync ceiling when one is set (the `spec_borrowed_freq` formula):
above the destination's `cpuinfo.min_freq` it becomes the boost floor of an
online destination, and at or below it the state is unchanged. -/
theorem C8_borrowed_frequency_formula (task_load boost_min sync_threshold :
    Nat) (sp dp : cpufreq_policy) (dest_online : Bool)
    (hov : dp.max * task_load < U32) :
    (dp.cpuinfo_min_freq <
        spec_borrowed_freq dp.max task_load sp.cur sync_threshold →
      boost_sync_iteration task_load boost_min sync_threshold (some sp)
        (some dp) dest_online =
        ((if dest_online then
            spec_borrowed_freq dp.max task_load sp.cur sync_threshold
          else 0),
         some (spec_borrowed_freq dp.max task_load sp.cur sync_threshold))) ∧
    (spec_borrowed_freq dp.max task_load sp.cur sync_threshold ≤
        dp.cpuinfo_min_freq →
      boost_sync_iteration task_load boost_min sync_threshold (some sp)
        (some dp) dest_online = (boost_min, none)) := by
  have hm : mul32 dp.max task_load = dp.max * task_load := mul32_eq_of_lt hov
  have hreq : boost_sync_iteration task_load boost_min sync_threshold
      (some sp) (some dp) dest_online =
      (if spec_borrowed_freq dp.max task_load sp.cur sync_threshold ≤
          dp.cpuinfo_min_freq then (boost_min, none)
       else if dest_online then
         (spec_borrowed_freq dp.max task_load sp.cur sync_threshold,
          some (spec_borrowed_freq dp.max task_load sp.cur sync_threshold))
       else (0, some (spec_borrowed_freq dp.max task_load sp.cur
         sync_threshold))) := by
    unfold boost_sync_iteration spec_borrowed_freq
    dsimp only
    rw [hm]
  constructor
  · intro h
    rw [hreq, if_neg (by omega)]
    cases dest_online <;> simp
  · intro h
    rw [hreq, if_pos h]

/-- Witness for C8: destination maximum 2000 kHz, task load 60%, source at
1000 kHz, ceiling 1100 kHz: the borrowed frequency is
`min(max(1200, 1000), 1100) = 1100`, above the destination minimum 300, so
it becomes the online destination's boost floor. -/
theorem C8_borrowed_frequency_formula_witness :
    ((2000 * 60 : Nat) < U32 ∧
     (300 : Nat) < spec_borrowed_freq 2000 60 1000 1100) ∧
    boost_sync_iteration 60 0 1100 (some ⟨1000, 300, 1500, 300, 1500⟩)
      (some ⟨1800, 300, 2000, 300, 2000⟩) true =
      (spec_borrowed_freq 2000 60 1000 1100,
       some (spec_borrowed_freq 2000 60 1000 1100)) :=
  ⟨⟨by decide, by decide⟩, by
    have h := (C8_borrowed_frequency_formula 60 0 1100
      ⟨1000, 300, 1500, 300, 1500⟩ ⟨1800, 300, 2000, 300, 2000⟩ true
      (by decide)).1 (by decide)
    simpa using h⟩

lemma od_init_skip (st : od_gov_state) (nok iok sok : Bool)
    (h1 : 1 ≤ st.gov_enable_cnt) (h2 : st.gov_enable_cnt + 1 < U32) :
    od_init st nok iok sok =
      ({ st with gov_enable_cnt := st.gov_enable_cnt + 1 }, true) ∧
    od_init_does_setup st nok iok sok = false := by
  have ha : add32 st.gov_enable_cnt 1 = st.gov_enable_cnt + 1 :=
    add32_eq_of_lt h2
  constructor
  · unfold od_init
    rw [ha, if_pos (by omega)]
  · unfold od_init_does_setup
    rw [ha]
    have hb : (st.gov_enable_cnt + 1 == 1) = false :=
      beq_eq_false_iff_ne.mpr (by omega)
    rw [hb]
    rfl

lemma od_exit_skip (st : od_gov_state) (h1 : 2 ≤ st.gov_enable_cnt)
    (h2 : st.gov_enable_cnt < U32) :
    od_exit st = { st with gov_enable_cnt := st.gov_enable_cnt - 1 } ∧
    od_exit_does_teardown st = false := by
  have hs : sub32 st.gov_enable_cnt 1 = st.gov_enable_cnt - 1 :=
    sub32_eq_of_le (by omega) h2
  constructor
  · unfold od_exit
    rw [hs, if_pos (by omega)]
  · unfold od_exit_does_teardown
    rw [hs]
    exact beq_eq_false_iff_ne.mpr (by omega)

lemma od_run_starts (m : Nat) : ∀ k : Nat, 1 ≤ k → k + m < U32 →
    od_run ⟨k, true, true, true⟩
      (List.replicate m (gov_event.start true true true)) =
      (⟨k + m, true, true, true⟩, 0, 0) := by
  induction m with
  | zero => intro k h1 h2; simp [od_run]
  | succ n ih =>
      intro k h1 h2
      rw [List.replicate_succ]
      simp only [od_run]
      have hs := od_init_skip ⟨k, true, true, true⟩ true true true h1
        (show k + 1 < U32 by omega)
      rw [hs.1, hs.2]
      have ihr := ih (k + 1) (by omega) (by omega)
      dsimp only
      rw [ihr]
      have h3 : k + 1 + n = k + (n + 1) := by omega
      rw [h3]
      simp

lemma od_run_stops (m : Nat) : ∀ k : Nat, m < k → k < U32 →
    od_run ⟨k, true, true, true⟩ (List.replicate m gov_event.stop) =
      (⟨k - m, true, true, true⟩, 0, 0) := by
  induction m with
  | zero => intro k h1 h2; simp [od_run]
  | succ n ih =>
      intro k h1 h2
      rw [List.replicate_succ]
      simp only [od_run]
      have hs := od_exit_skip ⟨k, true, true, true⟩ (show 2 ≤ k by omega) h2
      rw [hs.1, hs.2]
      have ihr := ih (k - 1) (by omega) (by omega)
      dsimp only
      rw [ihr]
      have h3 : k - 1 - n = k - (n + 1) := by omega
      rw [h3]
      simp

/-- C9: for every `N >= 1` (below the `u32` limit), starting the governor on
`N` cpus performs the shared-resource setup exactly once, on the 0-to-1
transition of the reference count; stopping `N - 1` of them performs no
teardown and leaves the resources registered; stopping the last one tears
them down exactly once; a failed setup restores the reference count to 0
with nothing registered; and the invariant "shared resources are registered
iff the reference count is positive" is preserved by every START and STOP
(STOPs only being issued for started cpus). -/
theorem C9_refcounted_shared_setup :
    (∀ N : Nat, 1 ≤ N → N < U32 →
      od_run ⟨0, false, false, false⟩
        (List.replicate N (gov_event.start true true true)) =
        (⟨N, true, true, true⟩, 1, 0)) ∧
    (∀ N : Nat, 1 ≤ N → N < U32 →
      od_run ⟨N, true, true, true⟩ (List.replicate (N - 1) gov_event.stop) =
        (⟨1, true, true, true⟩, 0, 0)) ∧
    (od_run ⟨1, true, true, true⟩ [gov_event.stop] =
      (⟨0, false, false, false⟩, 0, 1)) ∧
    (∀ nok iok sok : Bool, (nok && iok && sok) = false →
      od_init ⟨0, false, false, false⟩ nok iok sok =
        (⟨0, false, false, false⟩, false)) ∧
    (∀ st ev, od_lifecycle_invariant st → st.gov_enable_cnt < U32MAX →
      (ev = gov_event.stop → 1 ≤ st.gov_enable_cnt) →
      od_lifecycle_invariant (od_step st ev)) := by
  refine ⟨?_, ?_, by decide, by decide, ?_⟩
  · intro N h1 h2
    obtain ⟨m, rfl⟩ : ∃ m, N = m + 1 := ⟨N - 1, by omega⟩
    rw [List.replicate_succ]
    simp only [od_run]
    have h0 : od_init ⟨0, false, false, false⟩ true true true =
        (⟨1, true, true, true⟩, true) := by decide
    have hset : od_init_does_setup ⟨0, false, false, false⟩ true true true =
        true := by decide
    rw [h0, hset]
    dsimp only
    rw [od_run_starts m 1 (by omega) (by omega)]
    have h3 : 1 + m = m + 1 := by omega
    rw [h3]
    simp
  · intro N h1 h2
    rw [od_run_stops (N - 1) N (by omega) h2]
    have : N - (N - 1) = 1 := by omega
    rw [this]
  · intro st ev hinv hcnt hstop
    have hU : U32 = 2 ^ 32 := rfl
    have hUM : U32MAX = 2 ^ 32 - 1 := rfl
    obtain ⟨e1, e2, e3⟩ := hinv
    cases ev with
    | stop =>
        have h1 : 1 ≤ st.gov_enable_cnt := hstop rfl
        have hflag : st.notifier_registered = true := e3.mpr h1
        simp only [od_step]
        unfold od_exit
        have hs : sub32 st.gov_enable_cnt 1 = st.gov_enable_cnt - 1 :=
          sub32_eq_of_le h1 (by omega)
        rw [hs]
        by_cases h0 : st.gov_enable_cnt - 1 ≠ 0
        · rw [if_pos h0]
          refine ⟨e1, e2, ?_⟩
          dsimp only
          exact ⟨fun _ => by omega, fun _ => hflag⟩
        · rw [if_neg h0]
          refine ⟨rfl, rfl, ?_⟩
          dsimp only
          simp
    | start nok iok sok =>
        simp only [od_step]
        unfold od_init
        have ha : add32 st.gov_enable_cnt 1 = st.gov_enable_cnt + 1 :=
          add32_eq_of_lt (by omega)
        rw [ha]
        by_cases h1 : st.gov_enable_cnt + 1 ≠ 1
        · rw [if_pos h1]
          have hge : 1 ≤ st.gov_enable_cnt := by omega
          have hflag : st.notifier_registered = true := e3.mpr hge
          refine ⟨e1, e2, ?_⟩
          dsimp only
          exact ⟨fun _ => by omega, fun _ => hflag⟩
        · rw [if_neg h1]
          have hc0 : st.gov_enable_cnt = 0 := by omega
          have hf1 : st.notifier_registered = false := by
            cases hn : st.notifier_registered
            · rfl
            · exact absurd (e3.mp hn) (by omega)
          have hf2 : st.input_registered = false := by rw [← e1]; exact hf1
          have hf3 : st.sysfs_registered = false := by rw [← e2]; exact hf2
          have hsub : sub32 (st.gov_enable_cnt + 1) 1 = 0 := by
            rw [hc0]
            norm_num [sub32, U32]
          cases nok <;> cases iok <;> cases sok <;>
            simp only [Bool.not_true, Bool.not_false, Bool.false_eq_true,
              Bool.true_eq_false, if_true, if_false, reduceIte] <;>
            refine ⟨?_, ?_, ?_⟩ <;>
            simp_all [od_lifecycle_invariant, hsub]

/-- Witness for C9: two cpu starts from the clean state perform exactly one
setup and end with the reference count at 2 and everything registered. -/
theorem C9_refcounted_shared_setup_witness :
    ((1 : Nat) ≤ 2 ∧ (2 : Nat) < U32) ∧
    od_run ⟨0, false, false, false⟩
      (List.replicate 2 (gov_event.start true true true)) =
      (⟨2, true, true, true⟩, 1, 0) :=
  ⟨⟨by decide, by decide⟩,
   C9_refcounted_shared_setup.1 2 (by decide) (by decide)⟩

/-- C10: a STOP issued for a cpu whose governor is already stopped is
rejected with `NotRunning` and leaves both the running flag and every piece
of shared governor state unchanged — in particular, a STOP directly
following a successful STOP is rejected without a second teardown. -/
theorem C10_stop_when_stopped (st : od_gov_state) :
    (cpufreq_governor_dispatch false st gov_event.stop =
      (Except.error gov_error.NotRunning, false, st)) ∧
    (∀ running' st',
      cpufreq_governor_dispatch true st gov_event.stop =
        (Except.ok (), running', st') →
      cpufreq_governor_dispatch running' st' gov_event.stop =
        (Except.error gov_error.NotRunning, running', st')) := by
  constructor
  · rfl
  · intro running' st' h
    have hred : cpufreq_governor_dispatch true st gov_event.stop =
        (Except.ok (), false, od_exit st) := rfl
    rw [hred] at h
    have h2 := congrArg (fun x : Except gov_error Unit × Bool × od_gov_state =>
      x.2.1) h
    have h3 := congrArg (fun x : Except gov_error Unit × Bool × od_gov_state =>
      x.2.2) h
    dsimp only at h2 h3
    rw [← h2, ← h3]
    rfl

/-- Witness for C10: stopping the last running cpu succeeds and tears down;
the following STOP is rejected as `NotRunning` with the state unchanged. -/
theorem C10_stop_when_stopped_witness :
    (cpufreq_governor_dispatch true ⟨1, true, true, true⟩ gov_event.stop =
      (Except.ok (), false, ⟨0, false, false, false⟩)) ∧
    (cpufreq_governor_dispatch false ⟨0, false, false, false⟩
        gov_event.stop =
      (Except.error gov_error.NotRunning, false, ⟨0, false, false, false⟩)) :=
  ⟨rfl,
   (C10_stop_when_stopped ⟨1, true, true, true⟩).2 false
     ⟨0, false, false, false⟩ rfl⟩

lemma table_L_mem (T : List Nat) : ∀ t f, table_L T t = some f → f ∈ T := by
  induction T with
  | nil => intro t f h; simp [table_L] at h
  | cons a rest ih =>
      intro t f h
      cases rest with
      | nil =>
          simp only [table_L, Option.some.injEq] at h
          simp [h]
      | cons b rest2 =>
          simp only [table_L] at h
          by_cases hc : t ≤ a
          · rw [if_pos hc] at h
            injection h with h
            simp [h]
          · rw [if_neg hc] at h
            exact List.mem_cons_of_mem a (ih t f h)

lemma table_L_isSome (T : List Nat) (hne : T ≠ []) (t : Nat) :
    ∃ f, table_L T t = some f := by
  induction T with
  | nil => exact absurd rfl hne
  | cons a rest ih =>
      cases rest with
      | nil => exact ⟨a, rfl⟩
      | cons b rest2 =>
          by_cases hc : t ≤ a
          · exact ⟨a, by simp only [table_L, if_pos hc]⟩
          · obtain ⟨f, hf⟩ := ih (by simp)
            exact ⟨f, by simp only [table_L, if_neg hc]; exact hf⟩

lemma table_L_below (T : List Nat) :
    List.Pairwise (· < ·) T → ∀ t f, table_L T t = some f →
      ∀ g ∈ T, g < f → g < t := by
  induction T with
  | nil => intro _ t f h; simp [table_L] at h
  | cons a rest ih =>
      intro hs t f h g hg hgf
      obtain ⟨ha, hrest⟩ := List.pairwise_cons.mp hs
      cases rest with
      | nil =>
          simp only [table_L, Option.some.injEq] at h
          subst h
          simp only [List.mem_singleton] at hg
          omega
      | cons b rest2 =>
          simp only [table_L] at h
          by_cases hc : t ≤ a
          · rw [if_pos hc] at h
            injection h with h
            subst h
            rcases List.mem_cons.mp hg with rfl | hg2
            · omega
            · exact absurd (ha g hg2) (by omega)
          · rw [if_neg hc] at h
            rcases List.mem_cons.mp hg with rfl | hg2
            · omega
            · exact ih hrest t f h g hg2 hgf

lemma table_L_ge_or_max (T : List Nat) :
    List.Pairwise (· < ·) T → ∀ t f, table_L T t = some f →
      t ≤ f ∨ ∀ g ∈ T, g ≤ f := by
  induction T with
  | nil => intro _ t f h; simp [table_L] at h
  | cons a rest ih =>
      intro hs t f h
      obtain ⟨ha, hrest⟩ := List.pairwise_cons.mp hs
      cases rest with
      | nil =>
          simp only [table_L, Option.some.injEq] at h
          subst h
          by_cases hc : t ≤ a
          · exact Or.inl hc
          · right
            intro g hg
            simp only [List.mem_singleton] at hg
            omega
      | cons b rest2 =>
          simp only [table_L] at h
          by_cases hc : t ≤ a
          · rw [if_pos hc] at h
            injection h with h
            subst h
            exact Or.inl hc
          · rw [if_neg hc] at h
            rcases ih hrest t f h with h1 | h1
            · exact Or.inl h1
            · right
              intro g hg
              rcases List.mem_cons.mp hg with rfl | hg2
              · exact le_of_lt (ha f (table_L_mem _ t f h))
              · exact h1 g hg2

lemma table_H_mem (T : List Nat) : ∀ t f, table_H T t = some f → f ∈ T := by
  induction T with
  | nil => intro t f h; simp [table_H] at h
  | cons a rest ih =>
      intro t f h
      cases rest with
      | nil =>
          simp only [table_H, Option.some.injEq] at h
          simp [h]
      | cons b rest2 =>
          simp only [table_H] at h
          by_cases hc : t < b
          · rw [if_pos hc] at h
            injection h with h
            simp [h]
          · rw [if_neg hc] at h
            exact List.mem_cons_of_mem a (ih t f h)

lemma table_H_isSome (T : List Nat) (hne : T ≠ []) (t : Nat) :
    ∃ f, table_H T t = some f := by
  induction T with
  | nil => exact absurd rfl hne
  | cons a rest ih =>
      cases rest with
      | nil => exact ⟨a, rfl⟩
      | cons b rest2 =>
          by_cases hc : t < b
          · exact ⟨a, by simp only [table_H, if_pos hc]⟩
          · obtain ⟨f, hf⟩ := ih (by simp)
            exact ⟨f, by simp only [table_H, if_neg hc]; exact hf⟩

lemma table_H_above (T : List Nat) :
    List.Pairwise (· < ·) T → ∀ t f, table_H T t = some f →
      ∀ g ∈ T, f < g → t < g := by
  induction T with
  | nil => intro _ t f h; simp [table_H] at h
  | cons a rest ih =>
      intro hs t f h g hg hfg
      obtain ⟨ha, hrest⟩ := List.pairwise_cons.mp hs
      cases rest with
      | nil =>
          simp only [table_H, Option.some.injEq] at h
          subst h
          simp only [List.mem_singleton] at hg
          omega
      | cons b rest2 =>
          simp only [table_H] at h
          by_cases hc : t < b
          · rw [if_pos hc] at h
            injection h with h
            subst h
            rcases List.mem_cons.mp hg with rfl | hg2
            · omega
            · rcases List.mem_cons.mp hg2 with rfl | hg3
              · exact hc
              · obtain ⟨hb, -⟩ := List.pairwise_cons.mp hrest
                exact lt_trans hc (hb g hg3)
          · rw [if_neg hc] at h
            rcases List.mem_cons.mp hg with rfl | hg2
            · exact absurd (ha f (table_H_mem _ t f h)) (by omega)
            · exact ih hrest t f h g hg2 hfg

lemma table_H_le_or_min (T : List Nat) :
    List.Pairwise (· < ·) T → ∀ t f, table_H T t = some f →
      f ≤ t ∨ ∀ g ∈ T, f ≤ g := by
  induction T with
  | nil => intro _ t f h; simp [table_H] at h
  | cons a rest ih =>
      intro hs t f h
      obtain ⟨ha, hrest⟩ := List.pairwise_cons.mp hs
      cases rest with
      | nil =>
          simp only [table_H, Option.some.injEq] at h
          subst h
          by_cases hc : a ≤ t
          · exact Or.inl hc
          · right
            intro g hg
            simp only [List.mem_singleton] at hg
            omega
      | cons b rest2 =>
          simp only [table_H] at h
          by_cases hc : t < b
          · rw [if_pos hc] at h
            injection h with h
            subst h
            by_cases hc2 : a ≤ t
            · exact Or.inl hc2
            · right
              intro g hg
              rcases List.mem_cons.mp hg with rfl | hg2
              · exact le_refl _
              · exact le_of_lt (ha g hg2)
          · rw [if_neg hc] at h
            rcases ih hrest t f h with h1 | h1
            · exact Or.inl h1
            · exact Or.inl (le_trans (h1 b (by simp)) (by omega))

/-- Correctness of the `choose_freq` bisection loop: under a sorted table of
positive frequencies below the `~0` sentinel, a target-load assignment that
is monotone in frequency, positive and at most the frequency on table
entries, and a load some table frequency can carry, any value the loop
terminates with is a table frequency whose integer load
`loadadjfreq / freq` does not exceed its target load, below which every
table frequency's exact load strictly exceeds its target load. -/
lemma choose_freq_loop_correct (T tl_list : List Nat) (la : Nat)
    (hs : List.Pairwise (· < ·) T) (hne : T ≠ [])
    (hpos : ∀ f ∈ T, 0 < f)
    (hlt_max : ∀ f ∈ T, f < U32MAX)
    (hmono : ∀ a b : Nat, a ≤ b →
      freq_to_target_loads tl_list a ≤ freq_to_target_loads tl_list b)
    (htl_pos : ∀ f ∈ T, 0 < freq_to_target_loads tl_list f)
    (htl_le : ∀ f ∈ T, freq_to_target_loads tl_list f ≤ f)
    (hsat : ∃ g ∈ T, la ≤ freq_to_target_loads tl_list g * g) :
    ∀ fuel freq fm fx, freq ∈ T →
      (fm = 0 ∨ (fm ∈ T ∧ freq_to_target_loads tl_list fm * (fm + 1) ≤ la)) →
      (fx = U32MAX ∨ (fx ∈ T ∧ la < freq_to_target_loads tl_list fx * fx)) →
      ∀ r, choose_freq_loop T tl_list la fuel freq fm fx = some r →
        r ∈ T ∧ la / r ≤ freq_to_target_loads tl_list r ∧
        ∀ f' ∈ T, f' < r →
          freq_to_target_loads tl_list f' * f' < la := by
  intro fuel
  induction fuel with
  | zero =>
      intro freq fm fx _ _ _ r h
      simp [choose_freq_loop] at h
  | succ n ih =>
      intro freq fm fx hfreq hImin hImax r hr
      have htlpos : 0 < freq_to_target_loads tl_list freq := htl_pos freq hfreq
      obtain ⟨f1, hL⟩ :=
        table_L_isSome T hne (la / freq_to_target_loads tl_list freq)
      simp only [choose_freq_loop] at hr
      rw [hL] at hr
      dsimp only at hr
      by_cases h1 : freq < f1
      · rw [if_pos h1] at hr
        have hAt : freq < la / freq_to_target_loads tl_list freq :=
          table_L_below T hs _ f1 hL freq hfreq h1
        have hA1 : freq_to_target_loads tl_list freq * (freq + 1) ≤ la := by
          have h5 : freq + 1 ≤ la / freq_to_target_loads tl_list freq := hAt
          have h6 := (Nat.le_div_iff_mul_le htlpos).mp h5
          rw [Nat.mul_comm] at h6
          exact h6
        by_cases h2 : fx ≤ f1
        · rw [if_pos h2] at hr
          have hf1mem : f1 ∈ T := table_L_mem T _ f1 hL
          have hfxT : fx ∈ T ∧
              la < freq_to_target_loads tl_list fx * fx := by
            rcases hImax with h | h
            · exact absurd (hlt_max f1 hf1mem) (by omega)
            · exact h
          obtain ⟨f2, hH⟩ := table_H_isSome T hne (fx - 1)
          rw [hH] at hr
          dsimp only at hr
          by_cases h3 : f2 = freq
          · rw [if_pos h3] at hr
            injection hr with hr
            rw [hr] at hfxT hH
            refine ⟨hfxT.1, ?_, ?_⟩
            · exact le_of_lt
                ((Nat.div_lt_iff_lt_mul (hpos r hfxT.1)).mpr hfxT.2)
            · intro f' hf' hlt
              by_cases hcmp : freq < f'
              · have := table_H_above T hs (r - 1) f2 hH f' hf'
                  (by omega)
                omega
              · push_neg at hcmp
                have hle1 : freq_to_target_loads tl_list f' ≤
                    freq_to_target_loads tl_list freq := hmono _ _ hcmp
                calc freq_to_target_loads tl_list f' * f'
                    ≤ freq_to_target_loads tl_list freq * freq :=
                      Nat.mul_le_mul hle1 hcmp
                  _ < freq_to_target_loads tl_list freq * (freq + 1) := by
                      exact mul_lt_mul_of_pos_left (by omega) htlpos
                  _ ≤ la := hA1
          · rw [if_neg h3] at hr
            exact ih f2 freq fx (table_H_mem T _ f2 hH)
              (Or.inr ⟨hfreq, hA1⟩) hImax r hr
        · rw [if_neg h2] at hr
          exact ih f1 freq fx (table_L_mem T _ f1 hL)
            (Or.inr ⟨hfreq, hA1⟩) hImax r hr
      · by_cases h2 : f1 < freq
        · rw [if_neg h1, if_pos h2] at hr
          have hA2 : la < freq_to_target_loads tl_list freq * freq := by
            rcases table_L_ge_or_max T hs _ f1 hL with hge | hmaxc
            · have h5 : la / freq_to_target_loads tl_list freq < freq := by
                omega
              have h6 := (Nat.div_lt_iff_lt_mul htlpos).mp h5
              rw [Nat.mul_comm] at h6
              exact h6
            · exact absurd (hmaxc freq hfreq) (by omega)
          by_cases h3 : f1 ≤ fm
          · rw [if_pos h3] at hr
            obtain ⟨f2, hL2⟩ := table_L_isSome T hne (fm + 1)
            rw [hL2] at hr
            dsimp only at hr
            by_cases h4 : f2 = freq
            · rw [if_pos h4] at hr
              injection hr with hr
              have hE : r = freq := by rw [← hr, h4]
              rw [← hE] at hfreq hA2
              rw [hr] at hL2
              refine ⟨hfreq, ?_, ?_⟩
              · exact le_of_lt
                  ((Nat.div_lt_iff_lt_mul (hpos r hfreq)).mpr hA2)
              · intro f' hf' hlt
                have hgap := table_L_below T hs (fm + 1) r hL2 f' hf' hlt
                rcases hImin with rfl | ⟨hfmT, hfmfact⟩
                · exact absurd (hpos f' hf') (by omega)
                · have hle1 : freq_to_target_loads tl_list f' ≤
                      freq_to_target_loads tl_list fm := hmono _ _ (by omega)
                  have htlfm : 0 < freq_to_target_loads tl_list fm :=
                    htl_pos fm hfmT
                  calc freq_to_target_loads tl_list f' * f'
                      ≤ freq_to_target_loads tl_list fm * fm :=
                        Nat.mul_le_mul hle1 (by omega)
                    _ < freq_to_target_loads tl_list fm * (fm + 1) := by
                        exact mul_lt_mul_of_pos_left (by omega) htlfm
                    _ ≤ la := hfmfact
            · rw [if_neg h4] at hr
              exact ih f2 fm freq (table_L_mem T _ f2 hL2) hImin
                (Or.inr ⟨hfreq, hA2⟩) r hr
          · rw [if_neg h3] at hr
            exact ih f1 fm freq (table_L_mem T _ f1 hL) hImin
              (Or.inr ⟨hfreq, hA2⟩) r hr
        · rw [if_neg h1, if_neg h2] at hr
          injection hr with hr
          have hE : r = freq := by omega
          rw [← hE] at hfreq htlpos hL
          rw [hr] at hL
          refine ⟨hfreq, ?_, ?_⟩
          · rcases table_L_ge_or_max T hs _ r hL with hge | hmaxc
            · have h5 : la < freq_to_target_loads tl_list r * (r + 1) := by
                have h6 : la / freq_to_target_loads tl_list r < r + 1 := by
                  omega
                have h7 := (Nat.div_lt_iff_lt_mul htlpos).mp h6
                rw [Nat.mul_comm] at h7
                exact h7
              have h6 : freq_to_target_loads tl_list r ≤ r := htl_le r hfreq
              have h7 : la < (freq_to_target_loads tl_list r + 1) * r := by
                calc la < freq_to_target_loads tl_list r * (r + 1) := h5
                  _ = freq_to_target_loads tl_list r * r +
                      freq_to_target_loads tl_list r := by ring
                  _ ≤ freq_to_target_loads tl_list r * r + r := by omega
                  _ = (freq_to_target_loads tl_list r + 1) * r := by ring
              exact Nat.le_of_lt_succ
                ((Nat.div_lt_iff_lt_mul (hpos r hfreq)).mpr h7)
            · obtain ⟨g, hg, hgsat⟩ := hsat
              have hgle : g ≤ r := hmaxc g hg
              have h5 : la ≤ freq_to_target_loads tl_list r * r :=
                le_trans hgsat (Nat.mul_le_mul (hmono _ _ hgle) hgle)
              have h6 : la < (freq_to_target_loads tl_list r + 1) * r := by
                have := hpos r hfreq
                calc la ≤ freq_to_target_loads tl_list r * r := h5
                  _ < (freq_to_target_loads tl_list r + 1) * r := by
                      exact Nat.mul_lt_mul_of_lt_of_le (by omega)
                        (le_refl _) this
              exact Nat.le_of_lt_succ
                ((Nat.div_lt_iff_lt_mul (hpos r hfreq)).mpr h6)
          · intro f' hf' hlt
            have hb := table_L_below T hs _ r hL f' hf' hlt
            have h5 : freq_to_target_loads tl_list r * (f' + 1) ≤ la := by
              have h6 : f' + 1 ≤ la / freq_to_target_loads tl_list r := hb
              have h7 := (Nat.le_div_iff_mul_le htlpos).mp h6
              rw [Nat.mul_comm] at h7
              exact h7
            have hle1 : freq_to_target_loads tl_list f' ≤
                freq_to_target_loads tl_list r := hmono _ _ (le_of_lt hlt)
            calc freq_to_target_loads tl_list f' * f'
                ≤ freq_to_target_loads tl_list r * f' :=
                  Nat.mul_le_mul_right _ hle1
              _ < freq_to_target_loads tl_list r * (f' + 1) := by
                  exact mul_lt_mul_of_pos_left (by omega) htlpos
              _ ≤ la := h5

/-- Counterexample for C2.  First input: table `[100, 200]`, single target
load 80, current frequency 200, `loadadjfreq = 8080` — `choose_freq`
returns 200, yet 100 is a lower table frequency whose target load is not
exceeded by its integer-computed load (`8080 / 100 = 80 ≤ 80`), so the
returned frequency is not the lowest such one.  Second input: table
`[10, 100]`, load `850` at current frequency 100 — `choose_freq` returns 10
whose integer load `850 / 10 = 85` exceeds the target load 80 even though
the table frequency 100 satisfies it.  The target-load assignment is
constant (80), so increasing frequencies never map to a lower target
load. -/
theorem C2_choose_freq_counterexample :
    (choose_freq [100, 200] [80] 0 ⟨200, 100, 200, 100, 200⟩ 10 8080 40 =
       some 200 ∧
     (100 : Nat) ∈ [100, 200] ∧ (100 : Nat) < 200 ∧
     8080 / 100 ≤ freq_to_target_loads [80] 100) ∧
    (choose_freq [10, 100] [80] 0 ⟨100, 10, 100, 10, 100⟩ 10 850 85 =
       some 10 ∧
     freq_to_target_loads [80] 10 < 850 / 10 ∧
     (100 : Nat) ∈ [10, 100] ∧
     850 / 100 ≤ freq_to_target_loads [80] 100) ∧
    (∀ a b : Nat, a ≤ b →
      freq_to_target_loads [80] a ≤ freq_to_target_loads [80] b) := by
  refine ⟨⟨by decide, by decide, by decide, by decide⟩,
    ⟨by decide, by decide, by decide, by decide⟩, ?_⟩
  intro a b h
  exact Nat.le_refl 80

/-- C2 (amended): for the interactive governor, whenever increasing
frequencies never map to a lower configured target load, the table
frequencies are positive, below the `~0` sentinel and at least their
configured target loads, some table frequency can carry the load
(`loadadjfreq ≤ target_load(g) * g`), and the current frequency is a table
entry above `freq_calc_thresh`, then any frequency the bisection loop of
`choose_freq(loadadjfreq, cpu_load)` terminates with is a table frequency
whose configured target load is not exceeded by the integer-computed load
`loadadjfreq / freq`, and every lower table frequency would strictly exceed
its target load in exact arithmetic (`target_load(f') * f' < loadadjfreq`);
minimality with respect to the integer-division condition of the original
claim does not hold. -/
theorem C2_choose_freq_amended (T tl_list : List Nat)
    (freq_calc_thresh : Nat) (policy : cpufreq_policy)
    (fuel loadadjfreq cpu_load : Nat)
    (hs : List.Pairwise (· < ·) T) (hne : T ≠ [])
    (hpos : ∀ f ∈ T, 0 < f)
    (hlt_max : ∀ f ∈ T, f < U32MAX)
    (hmono : ∀ a b : Nat, a ≤ b →
      freq_to_target_loads tl_list a ≤ freq_to_target_loads tl_list b)
    (htl_pos : ∀ f ∈ T, 0 < freq_to_target_loads tl_list f)
    (htl_le : ∀ f ∈ T, freq_to_target_loads tl_list f ≤ f)
    (hsat : ∃ g ∈ T, loadadjfreq ≤ freq_to_target_loads tl_list g * g)
    (hcur : policy.cur ∈ T) (hfct : freq_calc_thresh < policy.cur)
    (r : Nat)
    (hr : choose_freq T tl_list freq_calc_thresh policy fuel loadadjfreq
      cpu_load = some r) :
    r ∈ T ∧
    loadadjfreq / r ≤ freq_to_target_loads tl_list r ∧
    ∀ f' ∈ T, f' < r →
      freq_to_target_loads tl_list f' * f' < loadadjfreq := by
  unfold choose_freq at hr
  rw [if_neg (by omega)] at hr
  exact choose_freq_loop_correct T tl_list loadadjfreq hs hne hpos hlt_max
    hmono htl_pos htl_le hsat fuel policy.cur 0 U32MAX hcur (Or.inl rfl)
    (Or.inl rfl) r hr

/-- Witness for C2 (amended), at the claim's own instance: single-breakpoint
target-load table `[(0, 80)]` and load 90% of the current 1000 kHz
(`loadadjfreq = 90000`) over the table `[500, 1000, 1500, 2000]`:
`choose_freq` returns 1500, whose target load 80 is not exceeded by the
computed load `90000 / 1500 = 60`, and both lower table frequencies would
exceed their target loads exactly. -/
theorem C2_choose_freq_amended_witness :
    (List.Pairwise (· < · : Nat → Nat → Prop) [500, 1000, 1500, 2000] ∧
     choose_freq [500, 1000, 1500, 2000] [80] 0 ⟨1000, 500, 2000, 500, 2000⟩
       10 90000 90 = some 1500) ∧
    ((1500 : Nat) ∈ [500, 1000, 1500, 2000] ∧
     90000 / 1500 ≤ freq_to_target_loads [80] 1500 ∧
     ∀ f' ∈ [(500 : Nat), 1000, 1500, 2000], f' < 1500 →
       freq_to_target_loads [80] f' * f' < 90000) :=
  ⟨⟨by decide, by decide⟩,
   C2_choose_freq_amended [500, 1000, 1500, 2000] [80] 0
     ⟨1000, 500, 2000, 500, 2000⟩ 10 90000 90 (by decide) (by decide)
     (by decide) (by decide) (fun a b h => Nat.le_refl 80) (by decide)
     (by decide) ⟨2000, by decide, by decide⟩ (by decide) (by decide) 1500
     (by decide)⟩

end Hammerhead
